import Mathlib

/-
Verification of the Advanced LoRA Stacker state-management core
(js/advanced_lora_stacker.js, v2 rewrite).  The JavaScript module is
shallowly embedded: the node state, the persisted snapshot, the widget
list produced by the UI reconciler, the persistence bridge and the
mutation API are all translated into executable Lean definitions, and
the behavioural properties are proved about those definitions.
-/

namespace LoraStacker

/-- Value stored in a widget.  JavaScript widget values are strings,
numbers, booleans, null, or undefined. -/
inductive WVal
  | str (s : String)
  | num (q : Rat)
  | bool (b : Bool)
  | null
  | missing
deriving DecidableEq, Repr

/-- Kind of a widget, as passed to addWidget / ComfyWidgets.
The stack-data widget is re-typed to the hidden kind converted-widget. -/
inductive WidgetKind
  | button
  | combo
  | number
  | toggle
  | converted
deriving DecidableEq, Repr

/-- One rendered control.  groupTag models the optional attached
attribute with its possibly-null value; loraTag likewise.
sizeOverride models a widget-specific computeSize result (only the
stack-data widget carries one in the source). -/
structure Widget where
  kind : WidgetKind
  name : String
  value : WVal
  groupTag : Option (Option Nat) := none
  loraTag : Option Nat := none
  isGroupWidget : Bool := false
  sizeOverride : Option (Int × Int) := none
deriving DecidableEq, Repr

/-- A group record of the snapshot (id, index, max_model, max_clip). -/
structure Group where
  id : Nat
  index : Nat
  max_model : Rat
  max_clip : Rat
deriving DecidableEq, Repr

/-- A LoRA item record of the snapshot.  group_id is none for the
null (ungrouped) sentinel.  Variant fields are optional because a
JavaScript object simply lacks the fields of the other variant. -/
structure Lora where
  id : Nat
  group_id : Option Nat
  name : String
  preset : String
  model_strength : Option Rat := none
  clip_strength : Option Rat := none
  random_model : Option Bool := none
  min_model : Option Rat := none
  max_model : Option Rat := none
  random_clip : Option Bool := none
  min_clip : Option Rat := none
  max_clip : Option Rat := none
  lock_model : Option Bool := none
  locked_model_value : Option Rat := none
  lock_clip : Option Bool := none
  locked_clip_value : Option Rat := none
deriving DecidableEq, Repr

/-- The persisted snapshot: groups plus loras. -/
structure LoraState where
  groups : List Group
  loras : List Lora
deriving DecidableEq, Repr

/-- Value of the document-visible stack-data field: an empty (falsy)
string, a non-empty string that JSON-parses to a snapshot, or a
non-empty string on which JSON.parse throws. -/
inductive DocValue
  | empty
  | json (s : LoraState)
  | corrupt
deriving DecidableEq, Repr

/-- The per-node state: canonical snapshot, id counters, the Collapse
set, the dynamic widget region, the document field, the localStorage
backup entry for this node, the node id and the re-entrancy guard. -/
structure NodeState where
  loraState : LoraState
  nextGroupId : Nat
  nextLoraId : Nat
  collapsedGroups : List Nat
  dynWidgets : List Widget
  stackDataValue : DocValue
  localCache : Option LoraState
  nodeId : Nat
  saving : Bool
deriving DecidableEq, Repr

/-- JavaScript truthiness of a group_id value: null and 0 are falsy. -/
def jsTruthyGid : Option Nat → Bool
  | some (Nat.succ _) => true
  | _ => false

/-- Negation of jsTruthyGid, mirroring the source test on group_id. -/
def jsFalsyGid (g : Option Nat) : Bool := !jsTruthyGid g

/-- JavaScript truthiness of a possibly-absent boolean field
(undefined and false are falsy). -/
def optTruthy : Option Bool → Bool
  | some b => b
  | none => false

/-- Widget value of a possibly-absent numeric field. -/
def wnum : Option Rat → WVal
  | some q => .num q
  | none => .missing

/-- Widget value of a possibly-absent boolean field. -/
def wbool : Option Bool → WVal
  | some b => .bool b
  | none => .missing

/-- JavaScript Map.set on an association list: the newest binding for
a key shadows the older ones. -/
def mapSet (m : List (Nat × Nat)) (k v : Nat) : List (Nat × Nat) :=
  (k, v) :: m.filter (fun p => p.1 != k)

/-- The widgets kept by clearDynamicWidgets, before the dynamic
region: the seed widget and the hidden stack-data widget. -/
def seedWidget : Widget :=
  { kind := .number, name := "seed", value := .num 0 }

/-- The hidden stack-data widget, with its custom computeSize. -/
def stackDataWidget : Widget :=
  { kind := .converted, name := "stack_data", value := .null,
    sizeOverride := some (0, -4) }

/-- The permanent add-LoRA action button. -/
def addLoraButton : Widget :=
  { kind := .button, name := "➕ Add LoRA", value := .null }

/-- The permanent add-Group action button. -/
def addGroupButton : Widget :=
  { kind := .button, name := "➕ Add Group", value := .null }

/-- The full widget list of the node: permanent head, the dynamic
region, then the two action buttons. -/
def allWidgets (n : NodeState) : List Widget :=
  [seedWidget, stackDataWidget] ++ n.dynWidgets ++ [addLoraButton, addGroupButton]

/-- createGroupWidgets: header (with collapse glyph), remove button,
Max MODEL, Max CLIP and add-LoRA button for one group. -/
def createGroupWidgets (newGroupId : Nat) (g : Group) (collapsed : List Nat) :
    List Widget :=
  [ { kind := .button,
      name := (if collapsed.contains newGroupId then "▶" else "▼")
        ++ " Group " ++ toString g.index,
      value := .null, groupTag := some (some newGroupId), isGroupWidget := true },
    { kind := .button, name := "✕ Remove", value := .null,
      groupTag := some (some newGroupId), isGroupWidget := true },
    { kind := .number, name := "  Max MODEL", value := .num g.max_model,
      groupTag := some (some newGroupId), isGroupWidget := true },
    { kind := .number, name := "  Max CLIP", value := .num g.max_clip,
      groupTag := some (some newGroupId), isGroupWidget := true },
    { kind := .button, name := "  ➕ Add LoRA", value := .null,
      groupTag := some (some newGroupId), isGroupWidget := true } ]

/-- createGroupedLoraControls: the lock toggles, each followed by its
value control when the lock flag is truthy. -/
def createGroupedLoraControls (loraId : Nat) (groupId : Option Nat) (l : Lora) :
    List Widget :=
  [ { kind := .toggle, name := "    🔒 MODEL", value := wbool l.lock_model,
      groupTag := some groupId, loraTag := some loraId } ]
  ++ (if optTruthy l.lock_model then
      [ { kind := .number, name := "      Value", value := wnum l.locked_model_value,
          groupTag := some groupId, loraTag := some loraId } ]
      else [])
  ++ [ { kind := .toggle, name := "    🔒 CLIP", value := wbool l.lock_clip,
         groupTag := some groupId, loraTag := some loraId } ]
  ++ (if optTruthy l.lock_clip then
      [ { kind := .number, name := "      Value", value := wnum l.locked_clip_value,
          groupTag := some groupId, loraTag := some loraId } ]
      else [])

/-- createUngroupedLoraControls: strengths and randomize toggles, the
Min and Max controls appearing only when the randomize flag is truthy. -/
def createUngroupedLoraControls (loraId : Nat) (l : Lora) : List Widget :=
  [ { kind := .number, name := "MODEL Str", value := wnum l.model_strength,
      loraTag := some loraId },
    { kind := .toggle, name := "  🎲 Random", value := wbool l.random_model,
      loraTag := some loraId } ]
  ++ (if optTruthy l.random_model then
      [ { kind := .number, name := "    Min", value := wnum l.min_model,
          loraTag := some loraId },
        { kind := .number, name := "    Max", value := wnum l.max_model,
          loraTag := some loraId } ]
      else [])
  ++ [ { kind := .number, name := "CLIP Str", value := wnum l.clip_strength,
         loraTag := some loraId },
       { kind := .toggle, name := "  🎲 Random", value := wbool l.random_clip,
         loraTag := some loraId } ]
  ++ (if optTruthy l.random_clip then
      [ { kind := .number, name := "    Min", value := wnum l.min_clip,
          loraTag := some loraId },
        { kind := .number, name := "    Max", value := wnum l.max_clip,
          loraTag := some loraId } ]
      else [])

/-- createLoraWidgets: selector, remove button, preset selector, then
the variant controls chosen by whether the groupId argument is null. -/
def createLoraWidgets (loraId : Nat) (groupId : Option Nat) (l : Lora) :
    List Widget :=
  let indent := if jsTruthyGid groupId then "    " else ""
  [ { kind := .combo, name := indent ++ "LoRA", value := .str l.name,
      groupTag := some groupId, loraTag := some loraId },
    { kind := .button, name := "✕", value := .null,
      groupTag := some groupId, loraTag := some loraId },
    { kind := .combo, name := indent ++ "Type", value := .str l.preset,
      groupTag := some groupId, loraTag := some loraId } ]
  ++ (match groupId with
      | some _ => createGroupedLoraControls loraId groupId l
      | none => createUngroupedLoraControls loraId l)

/-- Accumulator of the rebuildUI loops: the two fresh-id counters, the
old-to-new id maps and the widget list built so far. -/
structure BuildAcc where
  nextG : Nat
  nextL : Nat
  gmap : List (Nat × Nat)
  lmap : List (Nat × Nat)
  ws : List Widget
deriving Repr

/-- Inner loop of rebuildUI over the loras of one group. -/
def buildGroupLoras (newGroupId : Nat) : List Lora → BuildAcc → BuildAcc
  | [], acc => acc
  | l :: rest, acc =>
      buildGroupLoras newGroupId rest
        { acc with nextL := acc.nextL + 1,
                   lmap := mapSet acc.lmap l.id acc.nextL,
                   ws := acc.ws ++ createLoraWidgets acc.nextL (some newGroupId) l }

/-- Outer loop of rebuildUI over the groups: each group gets the next
fresh id, its widgets, and then the widgets of the loras whose
group_id strictly equals its old id. -/
def buildGroups (loras : List Lora) (collapsed : List Nat) :
    List Group → BuildAcc → BuildAcc
  | [], acc => acc
  | g :: rest, acc =>
      let acc1 := { acc with nextG := acc.nextG + 1,
                             gmap := mapSet acc.gmap g.id acc.nextG,
                             ws := acc.ws ++ createGroupWidgets acc.nextG g collapsed }
      let acc2 := buildGroupLoras acc.nextG
        (loras.filter (fun l => l.group_id == some g.id)) acc1
      buildGroups loras collapsed rest acc2

/-- Loop of rebuildUI over the loras with a falsy group_id. -/
def buildUngrouped : List Lora → BuildAcc → BuildAcc
  | [], acc => acc
  | l :: rest, acc =>
      buildUngrouped rest
        { acc with nextL := acc.nextL + 1,
                   lmap := mapSet acc.lmap l.id acc.nextL,
                   ws := acc.ws ++ createLoraWidgets acc.nextL none l }

/-- The id-update pass of rebuildUI over the groups: a group id is
replaced when the map holds a truthy new id for it. -/
def updateGroupIds (gmap : List (Nat × Nat)) (gs : List Group) : List Group :=
  gs.map (fun g =>
    match gmap.lookup g.id with
    | some n => if n ≠ 0 then { g with id := n } else g
    | none => g)

/-- The id-update pass of rebuildUI over the loras: the item id is
replaced when the map holds a truthy new id, and group_id is replaced
by the remapped id, or by null when the old group_id was falsy; a
truthy group_id missing from the map is left untouched (undefined). -/
def updateLoraIds (gmap lmap : List (Nat × Nat)) (ls : List Lora) : List Lora :=
  ls.map (fun l =>
    let newGroupId : Option (Option Nat) :=
      if jsTruthyGid l.group_id then
        match gmap.lookup (l.group_id.getD 0) with
        | some n => some (some n)
        | none => none
      else some none
    let l1 := match lmap.lookup l.id with
      | some n => if n ≠ 0 then { l with id := n } else l
      | none => l
    match newGroupId with
    | some v => { l1 with group_id := v }
    | none => l1)

/-- clearDynamicWidgets: removes every widget outside the permanent
set, emptying the dynamic region. -/
def clearDynamicWidgets (n : NodeState) : NodeState :=
  { n with dynWidgets := [] }

/-- rebuildUI: clears the dynamic region, rebuilds every group with
its loras and then the ungrouped loras while minting fresh sequential
ids, rewrites the snapshot ids from the collected maps and stores the
counters one past the last minted ids. -/
def rebuildUI (n : NodeState) : NodeState :=
  let s := n.loraState
  let acc1 := buildGroups s.loras n.collapsedGroups s.groups
    { nextG := 1, nextL := 1, gmap := [], lmap := [], ws := [] }
  let acc2 := buildUngrouped (s.loras.filter (fun l => jsFalsyGid l.group_id)) acc1
  { n with
    dynWidgets := acc2.ws,
    loraState := { groups := updateGroupIds acc2.gmap s.groups,
                   loras := updateLoraIds acc2.gmap acc2.lmap s.loras },
    nextGroupId := acc2.nextG,
    nextLoraId := acc2.nextL }

/-- saveState: guarded by the re-entrancy flag; serializes the
snapshot into the document field and, when the node id is truthy,
into the localStorage backup entry. -/
def saveState (n : NodeState) : NodeState :=
  if n.saving then n
  else
    let n1 := { n with stackDataValue := DocValue.json n.loraState }
    if n1.nodeId ≠ 0 then { n1 with localCache := some n1.loraState } else n1

/-- restoreState: when the document field is falsy, the localStorage
backup is adopted and saved back (when present, else return); then
the field is JSON-parsed, the parsed snapshot is adopted and the UI
is rebuilt, any parse failure being swallowed. -/
def restoreState (n : NodeState) : NodeState :=
  let step :=
    if n.stackDataValue = DocValue.empty then
      match n.localCache with
      | some s => (saveState { n with loraState := s }, true)
      | none => (n, false)
    else (n, true)
  if step.2 then
    match step.1.stackDataValue with
    | DocValue.json s =>
        rebuildUI { clearDynamicWidgets step.1 with loraState := s }
    | _ => step.1
  else step.1

/-- addGroup: appends a group with default ceilings and index equal to
the new length, creates its widgets at the end of the dynamic region
and saves. -/
def addGroup (n : NodeState) : NodeState :=
  let groupId := n.nextGroupId
  let g : Group := { id := groupId, index := n.loraState.groups.length + 1,
                     max_model := 1, max_clip := 1 }
  saveState
    { n with nextGroupId := groupId + 1,
             loraState := { n.loraState with groups := n.loraState.groups ++ [g] },
             dynWidgets := n.dynWidgets ++ createGroupWidgets groupId g n.collapsedGroups }

/-- The item record minted by addLora: lock fields for a grouped
item, strength and randomization fields for an ungrouped one. -/
def defaultLora (loraId : Nat) (groupId : Option Nat) : Lora :=
  match groupId with
  | none =>
      { id := loraId, group_id := none, name := "None", preset := "Full",
        model_strength := some 1, clip_strength := some 1,
        random_model := some false, min_model := some 0, max_model := some 1,
        random_clip := some false, min_clip := some 0, max_clip := some 1 }
  | some _ =>
      { id := loraId, group_id := groupId, name := "None", preset := "Full",
        lock_model := some false, locked_model_value := some 0,
        lock_clip := some false, locked_clip_value := some 0 }

/-- addLora: appends the default item for the target group id (no
existence check on the group), creates its widgets and saves. -/
def addLora (n : NodeState) (groupId : Option Nat) : NodeState :=
  let loraId := n.nextLoraId
  let l := defaultLora loraId groupId
  saveState
    { n with nextLoraId := loraId + 1,
             loraState := { n.loraState with loras := n.loraState.loras ++ [l] },
             dynWidgets := n.dynWidgets ++ createLoraWidgets loraId groupId l }

/-- The index-renumbering loop of removeGroup, assigning indices from
k upwards along the list. -/
def reindexFrom (k : Nat) : List Group → List Group
  | [] => []
  | g :: rest => { g with index := k } :: reindexFrom (k + 1) rest

/-- Array.prototype.findIndex, as an option-returning index search. -/
def jsFindIndex (p : α → Bool) : List α → Option Nat
  | [] => none
  | x :: t => if p x then some 0 else (jsFindIndex p t).map (· + 1)

/-- removeGroup: a missing id returns unchanged; otherwise the loras
of the group are dropped, the group is removed, the remaining indices
are renumbered from 1, and the UI is rebuilt then saved. -/
def removeGroup (n : NodeState) (groupId : Nat) : NodeState :=
  match jsFindIndex (fun g => g.id == groupId) n.loraState.groups with
  | none => n
  | some idx =>
      let loras := n.loraState.loras.filter (fun l => l.group_id != some groupId)
      let groups := reindexFrom 1 (n.loraState.groups.eraseIdx idx)
      saveState (rebuildUI { n with loraState := { groups := groups, loras := loras } })

/-- toggleGroupCollapse: flips membership of the id in the Collapse
set and rebuilds (without saving). -/
def toggleGroupCollapse (n : NodeState) (groupId : Nat) : NodeState :=
  let collapsed :=
    if n.collapsedGroups.contains groupId then
      n.collapsedGroups.filter (fun x => x != groupId)
    else n.collapsedGroups ++ [groupId]
  rebuildUI { n with collapsedGroups := collapsed }

/-- removeLora: a missing id returns unchanged; otherwise the item is
spliced out, the UI is rebuilt and the state saved. -/
def removeLora (n : NodeState) (loraId : Nat) : NodeState :=
  match jsFindIndex (fun l => l.id == loraId) n.loraState.loras with
  | none => n
  | some idx =>
      saveState (rebuildUI
        { n with loraState :=
            { n.loraState with loras := n.loraState.loras.eraseIdx idx } })

/-- Effective height a widget contributes in computeSize: a custom
computeSize result counts only when positive (plus spacing), and a
widget without one counts 30 unless it is the hidden converted kind. -/
def widgetEffHeight (w : Widget) : Int :=
  match w.sizeOverride with
  | some sz => if sz.2 > 0 then sz.2 + 4 else 0
  | none => if w.kind == WidgetKind.converted then 0 else 30

/-- computeSize: 60 plus the contributions of every widget, with the
140 floor and fixed width 450. -/
def computeSizeOf (n : NodeState) : Int × Int :=
  let height := 60 + ((allWidgets n).map widgetEffHeight).foldl (· + ·) 0
  (450, max 140 height)

/-- The node state right after onNodeCreated: empty snapshot, counters
at 1, empty Collapse set, no dynamic widgets, empty document field. -/
def initNode (nodeId : Nat) : NodeState :=
  { loraState := { groups := [], loras := [] },
    nextGroupId := 1, nextLoraId := 1,
    collapsedGroups := [], dynWidgets := [],
    stackDataValue := DocValue.empty, localCache := none,
    nodeId := nodeId, saving := false }

/-- In-place field update of the first lora whose id matches, as done
by the widget callbacks that find an item by id and mutate it. -/
def updateLoraById (loraId : Nat) (f : Lora → Lora) : List Lora → List Lora
  | [] => []
  | l :: rest =>
      if l.id == loraId then f l :: rest else l :: updateLoraById loraId f rest

/-- The Random CLIP toggle callback: when the item exists, store the
flag, rebuild the UI and save; otherwise do nothing. -/
def setRandomClip (n : NodeState) (loraId : Nat) (v : Bool) : NodeState :=
  if n.loraState.loras.any (fun l => l.id == loraId) then
    saveState (rebuildUI
      { n with loraState := { n.loraState with
          loras := updateLoraById loraId (fun l => { l with random_clip := some v })
            n.loraState.loras } })
  else n

/-- The Min CLIP value callback: when the item exists, store the value
and save (no rebuild). -/
def setMinClip (n : NodeState) (loraId : Nat) (v : Rat) : NodeState :=
  if n.loraState.loras.any (fun l => l.id == loraId) then
    saveState
      { n with loraState := { n.loraState with
          loras := updateLoraById loraId (fun l => { l with min_clip := some v })
            n.loraState.loras } }
  else n

/-- The Max CLIP value callback: when the item exists, store the value
and save (no rebuild). -/
def setMaxClip (n : NodeState) (loraId : Nat) (v : Rat) : NodeState :=
  if n.loraState.loras.any (fun l => l.id == loraId) then
    saveState
      { n with loraState := { n.loraState with
          loras := updateLoraById loraId (fun l => { l with max_clip := some v })
            n.loraState.loras } }
  else n

/-- save followed by load on the resulting document field, the
document-path round trip of the spec, starting from a fresh node
holding snapshot s. -/
def docRoundTrip (s : LoraState) : NodeState :=
  restoreState (saveState { initNode 1 with loraState := s })

/- ------------------------------------------------------------------
Specification layer: closed forms for the rebuild loops.
------------------------------------------------------------------ -/

/-- Sequential id assignment along a list, newest occurrence winning,
with numbering starting at k: the value recorded for x by the loop
that walks the list and does mapSet id (k + position). -/
def seqAssign : List Nat → Nat → Nat → Option Nat
  | [], _, _ => none
  | i :: rest, k, x =>
      match seqAssign rest (k + 1) x with
      | some v => some v
      | none => if i = x then some k else none

/-- The loras whose group_id strictly equals the old id of g: the
per-group filter of rebuildUI. -/
def bucketOf (loras : List Lora) (g : Group) : List Lora :=
  loras.filter (fun l => l.group_id == some g.id)

/-- Concatenation of the group buckets in group order. -/
def groupBuckets (gs : List Group) (loras : List Lora) : List Lora :=
  gs.flatMap (fun g => bucketOf loras g)

/-- The loras with a falsy group_id: the ungrouped filter. -/
def unBucket (loras : List Lora) : List Lora :=
  loras.filter (fun l => jsFalsyGid l.group_id)

/-- The items in rebuild order: every group bucket in group order,
then the ungrouped items. -/
def buildSeq (s : LoraState) : List Lora :=
  groupBuckets s.groups s.loras ++ unBucket s.loras

/-- Widgets of a run of loras built with consecutive fresh ids. -/
def lorasChunk : List Lora → Nat → Option Nat → List Widget
  | [], _, _ => []
  | l :: rest, k, gid => createLoraWidgets k gid l ++ lorasChunk rest (k + 1) gid

/-- Widgets of the grouped part of a rebuild, with the fresh group
counter at kg and the fresh lora counter at kl. -/
def wsSpec : List Group → List Lora → List Nat → Nat → Nat → List Widget
  | [], _, _, _, _ => []
  | g :: rest, loras, col, kg, kl =>
      createGroupWidgets kg g col ++ lorasChunk (bucketOf loras g) kl (some kg)
        ++ wsSpec rest loras col (kg + 1) (kl + (bucketOf loras g).length)

/-- The dynamic widget list a rebuild of snapshot s produces. -/
def rebuildWidgets (s : LoraState) (col : List Nat) : List Widget :=
  wsSpec s.groups s.loras col 1 1
    ++ lorasChunk (unBucket s.loras) ((groupBuckets s.groups s.loras).length + 1) none

/-- The accumulator value after both rebuild loops. -/
def rebuildAcc (s : LoraState) (col : List Nat) : BuildAcc :=
  buildUngrouped (s.loras.filter (fun l => jsFalsyGid l.group_id))
    (buildGroups s.loras col s.groups
      { nextG := 1, nextL := 1, gmap := [], lmap := [], ws := [] })

/-- The new id rebuildUI records for an old group id. -/
def gidLookup (s : LoraState) (x : Nat) : Option Nat :=
  seqAssign (s.groups.map Group.id) 1 x

/-- The new id rebuildUI records for an old item id. -/
def lidLookup (s : LoraState) (x : Nat) : Option Nat :=
  seqAssign ((buildSeq s).map Lora.id) 1 x

/-- The effect of the group id-update pass on one group. -/
def updGroupSpec (s : LoraState) (g : Group) : Group :=
  match gidLookup s g.id with
  | some v => { g with id := v }
  | none => g

/-- The effect of the lora id-update pass on one item. -/
def updLoraSpec (s : LoraState) (l : Lora) : Lora :=
  let l1 := match lidLookup s l.id with
    | some v => { l with id := v }
    | none => l
  if jsTruthyGid l.group_id then
    match gidLookup s (l.group_id.getD 0) with
    | some v => { l1 with group_id := some v }
    | none => l1
  else { l1 with group_id := none }

/-- The snapshot after the id-update pass of a rebuild. -/
def updState (s : LoraState) : LoraState :=
  { groups := s.groups.map (updGroupSpec s),
    loras := s.loras.map (updLoraSpec s) }

/-- Contiguous renumbering of a group list from k, in list order. -/
def renumberGroupsFrom (k : Nat) : List Group → List Group
  | [] => []
  | g :: rest => { g with id := k } :: renumberGroupsFrom (k + 1) rest

/-- All fields of an item other than the two ids. -/
def loraFields (l : Lora) :=
  (l.name, l.preset, l.model_strength, l.clip_strength,
   l.random_model, l.min_model, l.max_model,
   l.random_clip, l.min_clip, l.max_clip,
   l.lock_model, l.locked_model_value, l.lock_clip, l.locked_clip_value)

/-- All fields of a group other than its id. -/
def groupFields (g : Group) := (g.index, g.max_model, g.max_clip)

/-- The two ceiling fields of a group (stable across id renumbering
and index renumbering). -/
def groupCeilings (g : Group) := (g.max_model, g.max_clip)

/-- Replacing a group id along a renumbering map. -/
def renameGroup (φg : Nat → Nat) (g : Group) : Group := { g with id := φg g.id }

/-- Replacing the ids of an item along renumbering maps. -/
def renameLora (φg φi : Nat → Nat) (l : Lora) : Lora :=
  { l with id := φi l.id, group_id := l.group_id.map φg }

/-- Renaming every id of a snapshot along two maps: this keeps the
order of both lists, every non-id field, and group membership. -/
def renameState (φg φi : Nat → Nat) (s : LoraState) : LoraState :=
  { groups := s.groups.map (renameGroup φg),
    loras := s.loras.map (renameLora φg φi) }

/-- Structural equality up to id renumbering. -/
def EqUpToRenumbering (s t : LoraState) : Prop :=
  ∃ φg φi, t = renameState φg φi s

/-- Well-formedness as the round-trip claim words it: every item is
ungrouped or points at an existing group. -/
def itemsWellFormed (s : LoraState) : Prop :=
  ∀ l ∈ s.loras, l.group_id = none ∨ ∃ g ∈ s.groups, l.group_id = some g.id

/-- Strengthened well-formedness: every item is ungrouped or points at
an existing group whose id is nonzero (hence truthy in JavaScript). -/
def itemsWellFormedPos (s : LoraState) : Prop :=
  ∀ l ∈ s.loras, l.group_id = none ∨ ∃ g ∈ s.groups, g.id ≠ 0 ∧ l.group_id = some g.id

/-- Full well-formedness of a snapshot: distinct nonzero group ids,
distinct item ids, and every item ungrouped or pointing at an
existing group. -/
def snapshotWF (s : LoraState) : Prop :=
  (s.groups.map Group.id).Nodup ∧ (∀ g ∈ s.groups, g.id ≠ 0) ∧
    (s.loras.map Lora.id).Nodup ∧ itemsWellFormed s

/- ------------------------------------------------------------------
Concrete states used by counterexamples and witnesses.
------------------------------------------------------------------ -/

/-- A group literal. -/
def mkGroup (i idx : Nat) : Group :=
  { id := i, index := idx, max_model := 1, max_clip := 1 }

/-- A minimal item literal with the given ids and no variant fields. -/
def mkBareLora (i : Nat) (gid : Option Nat) : Lora :=
  { id := i, group_id := gid, name := "None", preset := "Full" }

/-- Snapshot with a single group whose id is 0, and one item of that
group: well-formed in the words of the round-trip claim, since the
item points at an existing group. -/
def ceStateGidZero : LoraState :=
  { groups := [mkGroup 0 1],
    loras := [{ mkBareLora 1 (some 0) with
                lock_model := some false, locked_model_value := some 0,
                lock_clip := some false, locked_clip_value := some 0 }] }

/-- A non-empty snapshot used as localStorage backup content. -/
def ceBackup : LoraState := { groups := [mkGroup 1 1], loras := [] }

/-- Node whose document field is corrupt while the localStorage backup
holds ceBackup. -/
def ceNodeCorrupt : NodeState :=
  { initNode 1 with stackDataValue := DocValue.corrupt, localCache := some ceBackup }

/-- Node holding a non-empty snapshot whose document field parses to
the structurally empty snapshot. -/
def ceNodeEmptyParse : NodeState :=
  { initNode 1 with
    loraState := { groups := [mkGroup 1 1], loras := [] },
    stackDataValue := DocValue.json { groups := [], loras := [] } }

/-- Snapshot with one group of id 5 and one dangling item whose
group_id 1 collides with the id the group receives on rebuild. -/
def ceStateCapture : LoraState :=
  { groups := [mkGroup 5 1], loras := [mkBareLora 1 (some 1)] }

/-- Snapshot with two groups sharing id 1 and no items. -/
def ceStateDupIds : LoraState :=
  { groups := [mkGroup 1 1, mkGroup 1 2], loras := [] }

/-- Snapshot with a single dangling item whose group_id is the falsy
number 0 while no group exists at all. -/
def ceStateGidZeroDangling : LoraState :=
  { groups := [], loras := [mkBareLora 5 (some 0)] }

/-- The rational 1/5, the value 0.2 of the scenario (kept in lowest
terms so that kernel evaluation works). -/
def ratP2 : Rat := mkRat 1 5

/-- The rational 4/5, the value 0.8 of the scenario. -/
def ratP8 : Rat := mkRat 4 5

/-- Node of the randomize-toggle scenario: one ungrouped item with
random_clip set, min_clip 0.2 and max_clip 0.8, built through the
mutation API and the widget callbacks. -/
def scnRandomNode : NodeState :=
  setMaxClip (setMinClip (setRandomClip (addLora (initNode 1) none) 1 true) 1 ratP2) 1 ratP8

/-- The same node after the Random CLIP toggle is switched back off
(the callback itself rebuilds). -/
def scnRandomNodeOff : NodeState := setRandomClip scnRandomNode 1 false

/-- Node of the collapse test: one group with one grouped item. -/
def scnCollapseNode : NodeState := addLora (addGroup (initNode 1)) (some 1)

/-- Node of the cascade-delete witness: two groups, one item in group
1, one ungrouped item. -/
def scnRemoveNode : NodeState :=
  addLora (addLora (addGroup (addGroup (initNode 1))) (some 1)) none

/- ------------------------------------------------------------------
Lemma layer: association lists and sequential id assignment.
------------------------------------------------------------------ -/

theorem lookup_cons_eq (m : List (Nat × Nat)) (k v x : Nat) :
    List.lookup x ((k, v) :: m) = if x = k then some v else List.lookup x m := by
  rw [List.lookup_cons]
  by_cases h : x = k
  · simp [h]
  · simp [beq_eq_false_iff_ne.mpr h, h]

theorem lookup_filter_ne (m : List (Nat × Nat)) (k x : Nat) (h : x ≠ k) :
    List.lookup x (m.filter (fun p => p.1 != k)) = List.lookup x m := by
  induction m with
  | nil => rfl
  | cons a t ih =>
      obtain ⟨a1, a2⟩ := a
      by_cases hk : a1 = k
      · have hfc : List.filter (fun p => p.1 != k) ((a1, a2) :: t) =
            List.filter (fun p => p.1 != k) t := by
          simp [List.filter_cons, hk]
        rw [hfc, ih, lookup_cons_eq]
        have hxa : x ≠ a1 := fun hh => h (hh.trans hk)
        simp [hxa]
      · have hfc : List.filter (fun p => p.1 != k) ((a1, a2) :: t) =
            (a1, a2) :: List.filter (fun p => p.1 != k) t := by
          simp [List.filter_cons, hk]
        rw [hfc, lookup_cons_eq, lookup_cons_eq]
        by_cases hx : x = a1
        · simp [hx]
        · simp [hx, ih]

theorem lookup_mapSet (m : List (Nat × Nat)) (k v x : Nat) :
    List.lookup x (mapSet m k v) = if x = k then some v else List.lookup x m := by
  unfold mapSet
  rw [lookup_cons_eq]
  by_cases h : x = k
  · simp [h]
  · simp [h, lookup_filter_ne m k x h]

theorem seqAssign_ge :
    ∀ (ids : List Nat) (k x v : Nat), seqAssign ids k x = some v → k ≤ v := by
  intro ids
  induction ids with
  | nil => intro k x v h; simp [seqAssign] at h
  | cons i rest ih =>
      intro k x v h
      unfold seqAssign at h
      cases hr : seqAssign rest (k + 1) x with
      | some w =>
          rw [hr] at h
          simp at h
          have := ih (k + 1) x w hr
          omega
      | none =>
          rw [hr] at h
          by_cases hi : i = x
          · simp [hi] at h; omega
          · simp [hi] at h

theorem seqAssign_eq_none :
    ∀ (ids : List Nat) (k x : Nat), x ∉ ids → seqAssign ids k x = none := by
  intro ids
  induction ids with
  | nil => intro k x _; rfl
  | cons i rest ih =>
      intro k x hx
      have hxr : x ∉ rest := fun h => hx (List.mem_cons_of_mem i h)
      have hxi : i ≠ x := fun h => hx (h ▸ List.mem_cons_self i rest)
      unfold seqAssign
      rw [ih (k + 1) x hxr]
      simp [hxi]

theorem seqAssign_mem :
    ∀ (ids : List Nat) (k x : Nat), x ∈ ids → ∃ v, seqAssign ids k x = some v := by
  intro ids
  induction ids with
  | nil => intro k x hx; exact absurd hx (List.not_mem_nil x)
  | cons i rest ih =>
      intro k x hx
      unfold seqAssign
      by_cases hxr : x ∈ rest
      · obtain ⟨v, hv⟩ := ih (k + 1) x hxr
        exact ⟨v, by rw [hv]⟩
      · have hxi : i = x := by
          rcases List.mem_cons.mp hx with h | h
          · exact h.symm
          · exact absurd h hxr
        rw [seqAssign_eq_none rest (k + 1) x hxr]
        exact ⟨k, by simp [hxi]⟩

theorem seqAssign_inj :
    ∀ (ids : List Nat) (k x y v : Nat),
      seqAssign ids k x = some v → seqAssign ids k y = some v → x = y := by
  intro ids
  induction ids with
  | nil => intro k x y v h; simp [seqAssign] at h
  | cons i rest ih =>
      intro k x y v hx hy
      unfold seqAssign at hx hy
      cases hrx : seqAssign rest (k + 1) x with
      | some wx =>
          rw [hrx] at hx
          simp at hx
          cases hry : seqAssign rest (k + 1) y with
          | some wy =>
              rw [hry] at hy
              simp at hy
              exact ih (k + 1) x y v (hx ▸ hrx) (hy ▸ hry)
          | none =>
              rw [hry] at hy
              by_cases hiy : i = y
              · simp [hiy] at hy
                have := seqAssign_ge rest (k + 1) x wx hrx
                omega
              · simp [hiy] at hy
      | none =>
          rw [hrx] at hx
          by_cases hix : i = x
          · simp [hix] at hx
            cases hry : seqAssign rest (k + 1) y with
            | some wy =>
                rw [hry] at hy
                simp at hy
                have := seqAssign_ge rest (k + 1) y wy hry
                omega
            | none =>
                rw [hry] at hy
                by_cases hiy : i = y
                · rw [← hix, ← hiy]
                · simp [hiy] at hy
          · simp [hix] at hx

theorem seqAssign_map (φ : Nat → Nat) :
    ∀ (ids : List Nat),
      (∀ a ∈ ids, ∀ b ∈ ids, φ a = φ b → a = b) →
      ∀ k x, x ∈ ids → seqAssign (ids.map φ) k (φ x) = seqAssign ids k x := by
  intro ids
  induction ids with
  | nil => intro _ k x hx; exact absurd hx (List.not_mem_nil x)
  | cons i rest ih =>
      intro hinj k x hx
      have hinjr : ∀ a ∈ rest, ∀ b ∈ rest, φ a = φ b → a = b := by
        intro a ha b hb
        exact hinj a (List.mem_cons_of_mem i ha) b (List.mem_cons_of_mem i hb)
      simp only [List.map_cons]
      unfold seqAssign
      by_cases hxr : x ∈ rest
      · rw [ih hinjr (k + 1) x hxr]
        cases hr : seqAssign rest (k + 1) x with
        | some v => rfl
        | none =>
            have hiff : φ i = φ x ↔ i = x := by
              constructor
              · intro h
                exact hinj i (List.mem_cons_self i rest) x hx h
              · intro h; rw [h]
            by_cases hix : i = x
            · simp [hix]
            · have hnphi : ¬φ i = φ x := fun h => hix (hiff.mp h)
              simp [hix, hnphi]
      · have hix : i = x := by
          rcases List.mem_cons.mp hx with h | h
          · exact h.symm
          · exact absurd h hxr
        have hnone : seqAssign (rest.map φ) (k + 1) (φ x) = none := by
          apply seqAssign_eq_none
          intro hmem
          obtain ⟨b, hb, hfb⟩ := List.mem_map.mp hmem
          exact hxr (hinj x hx b (List.mem_cons_of_mem i hb) hfb.symm ▸ hb)
        rw [hnone, seqAssign_eq_none rest (k + 1) x hxr]
        simp [hix]

theorem seqAssign_nodup :
    ∀ (ids : List Nat) (k x : Nat), ids.Nodup → x ∈ ids →
      seqAssign ids k x = some (k + ids.indexOf x) := by
  intro ids
  induction ids with
  | nil => intro k x _ hx; exact absurd hx (List.not_mem_nil x)
  | cons i rest ih =>
      intro k x hnd hx
      have hnd2 := List.nodup_cons.mp hnd
      unfold seqAssign
      by_cases hxr : x ∈ rest
      · have hix : i ≠ x := fun h => hnd2.1 (h ▸ hxr)
        rw [ih (k + 1) x hnd2.2 hxr]
        have : (i :: rest).indexOf x = rest.indexOf x + 1 := by
          simp [List.indexOf_cons, hix, beq_eq_false_iff_ne.mpr hix]
        rw [this]
        simp
        omega
      · have hix : i = x := by
          rcases List.mem_cons.mp hx with h | h
          · exact h.symm
          · exact absurd h hxr
        rw [seqAssign_eq_none rest (k + 1) x hxr]
        subst hix
        simp [List.indexOf_cons]

theorem seqAssign_append :
    ∀ (A B : List Nat) (k x : Nat),
      seqAssign (A ++ B) k x =
        match seqAssign B (k + A.length) x with
        | some v => some v
        | none => seqAssign A k x := by
  intro A
  induction A with
  | nil =>
      intro B k x
      simp only [List.nil_append, List.length_nil, Nat.add_zero]
      cases seqAssign B k x <;> simp [seqAssign]
  | cons i rest ih =>
      intro B k x
      show (match seqAssign (rest ++ B) (k + 1) x with
            | some v => some v
            | none => if i = x then some k else none) =
          match seqAssign B (k + (rest.length + 1)) x with
          | some v => some v
          | none =>
              match seqAssign rest (k + 1) x with
              | some v => some v
              | none => if i = x then some k else none
      rw [ih B (k + 1) x]
      have harith : k + 1 + rest.length = k + (rest.length + 1) := by omega
      rw [harith]
      cases hB : seqAssign B (k + (rest.length + 1)) x with
      | some v => rfl
      | none => cases seqAssign rest (k + 1) x <;> rfl

/- ------------------------------------------------------------------
Characterization of the rebuild loops.
------------------------------------------------------------------ -/

theorem buildGroupLoras_nextG (g : Nat) :
    ∀ (ls : List Lora) (acc : BuildAcc), (buildGroupLoras g ls acc).nextG = acc.nextG := by
  intro ls
  induction ls with
  | nil => intro acc; rfl
  | cons l rest ih => intro acc; rw [buildGroupLoras, ih]

theorem buildGroupLoras_gmap (g : Nat) :
    ∀ (ls : List Lora) (acc : BuildAcc), (buildGroupLoras g ls acc).gmap = acc.gmap := by
  intro ls
  induction ls with
  | nil => intro acc; rfl
  | cons l rest ih => intro acc; rw [buildGroupLoras, ih]

theorem buildGroupLoras_nextL (g : Nat) :
    ∀ (ls : List Lora) (acc : BuildAcc),
      (buildGroupLoras g ls acc).nextL = acc.nextL + ls.length := by
  intro ls
  induction ls with
  | nil => intro acc; rfl
  | cons l rest ih =>
      intro acc
      rw [buildGroupLoras, ih]
      simp
      omega

theorem buildGroupLoras_ws (g : Nat) :
    ∀ (ls : List Lora) (acc : BuildAcc),
      (buildGroupLoras g ls acc).ws = acc.ws ++ lorasChunk ls acc.nextL (some g) := by
  intro ls
  induction ls with
  | nil => intro acc; simp [buildGroupLoras, lorasChunk]
  | cons l rest ih =>
      intro acc
      rw [buildGroupLoras, ih]
      simp [lorasChunk]

theorem buildGroupLoras_lmap_lookup (g : Nat) :
    ∀ (ls : List Lora) (acc : BuildAcc) (x : Nat),
      List.lookup x (buildGroupLoras g ls acc).lmap =
        match seqAssign (ls.map Lora.id) acc.nextL x with
        | some v => some v
        | none => List.lookup x acc.lmap := by
  intro ls
  induction ls with
  | nil =>
      intro acc x
      show List.lookup x acc.lmap =
        match seqAssign (List.map Lora.id []) acc.nextL x with
        | some v => some v
        | none => List.lookup x acc.lmap
      cases List.lookup x acc.lmap <;> rfl
  | cons l rest ih =>
      intro acc x
      rw [buildGroupLoras, ih]
      simp only [List.map_cons]
      show (match seqAssign (rest.map Lora.id) (acc.nextL + 1) x with
            | some v => some v
            | none => List.lookup x (mapSet acc.lmap l.id acc.nextL)) =
          match
            (match seqAssign (rest.map Lora.id) (acc.nextL + 1) x with
             | some v => some v
             | none => if l.id = x then some acc.nextL else none) with
          | some v => some v
          | none => List.lookup x acc.lmap
      rw [lookup_mapSet]
      cases seqAssign (rest.map Lora.id) (acc.nextL + 1) x with
      | some v => rfl
      | none =>
          by_cases hlx : l.id = x
          · simp [hlx]
          · have hxl : ¬x = l.id := fun hh => hlx hh.symm
            simp [hlx, hxl]

theorem buildUngrouped_nextG :
    ∀ (ls : List Lora) (acc : BuildAcc), (buildUngrouped ls acc).nextG = acc.nextG := by
  intro ls
  induction ls with
  | nil => intro acc; rfl
  | cons l rest ih => intro acc; rw [buildUngrouped, ih]

theorem buildUngrouped_gmap :
    ∀ (ls : List Lora) (acc : BuildAcc), (buildUngrouped ls acc).gmap = acc.gmap := by
  intro ls
  induction ls with
  | nil => intro acc; rfl
  | cons l rest ih => intro acc; rw [buildUngrouped, ih]

theorem buildUngrouped_nextL :
    ∀ (ls : List Lora) (acc : BuildAcc),
      (buildUngrouped ls acc).nextL = acc.nextL + ls.length := by
  intro ls
  induction ls with
  | nil => intro acc; rfl
  | cons l rest ih =>
      intro acc
      rw [buildUngrouped, ih]
      simp
      omega

theorem buildUngrouped_ws :
    ∀ (ls : List Lora) (acc : BuildAcc),
      (buildUngrouped ls acc).ws = acc.ws ++ lorasChunk ls acc.nextL none := by
  intro ls
  induction ls with
  | nil => intro acc; simp [buildUngrouped, lorasChunk]
  | cons l rest ih =>
      intro acc
      rw [buildUngrouped, ih]
      simp [lorasChunk]

theorem buildUngrouped_lmap_lookup :
    ∀ (ls : List Lora) (acc : BuildAcc) (x : Nat),
      List.lookup x (buildUngrouped ls acc).lmap =
        match seqAssign (ls.map Lora.id) acc.nextL x with
        | some v => some v
        | none => List.lookup x acc.lmap := by
  intro ls
  induction ls with
  | nil =>
      intro acc x
      show List.lookup x acc.lmap =
        match seqAssign (List.map Lora.id []) acc.nextL x with
        | some v => some v
        | none => List.lookup x acc.lmap
      cases List.lookup x acc.lmap <;> rfl
  | cons l rest ih =>
      intro acc x
      rw [buildUngrouped, ih]
      simp only [List.map_cons]
      show (match seqAssign (rest.map Lora.id) (acc.nextL + 1) x with
            | some v => some v
            | none => List.lookup x (mapSet acc.lmap l.id acc.nextL)) =
          match
            (match seqAssign (rest.map Lora.id) (acc.nextL + 1) x with
             | some v => some v
             | none => if l.id = x then some acc.nextL else none) with
          | some v => some v
          | none => List.lookup x acc.lmap
      rw [lookup_mapSet]
      cases seqAssign (rest.map Lora.id) (acc.nextL + 1) x with
      | some v => rfl
      | none =>
          by_cases hlx : l.id = x
          · simp [hlx]
          · have hxl : ¬x = l.id := fun hh => hlx hh.symm
            simp [hlx, hxl]

theorem buildGroups_nextG (loras : List Lora) (col : List Nat) :
    ∀ (gs : List Group) (acc : BuildAcc),
      (buildGroups loras col gs acc).nextG = acc.nextG + gs.length := by
  intro gs
  induction gs with
  | nil => intro acc; rfl
  | cons g rest ih =>
      intro acc
      rw [buildGroups, ih, buildGroupLoras_nextG]
      simp
      omega

theorem buildGroups_gmap_lookup (loras : List Lora) (col : List Nat) :
    ∀ (gs : List Group) (acc : BuildAcc) (x : Nat),
      List.lookup x (buildGroups loras col gs acc).gmap =
        match seqAssign (gs.map Group.id) acc.nextG x with
        | some v => some v
        | none => List.lookup x acc.gmap := by
  intro gs
  induction gs with
  | nil =>
      intro acc x
      show List.lookup x acc.gmap =
        match seqAssign (List.map Group.id []) acc.nextG x with
        | some v => some v
        | none => List.lookup x acc.gmap
      cases List.lookup x acc.gmap <;> rfl
  | cons g rest ih =>
      intro acc x
      rw [buildGroups, ih]
      rw [buildGroupLoras_gmap, buildGroupLoras_nextG]
      simp only [List.map_cons]
      show (match seqAssign (rest.map Group.id) (acc.nextG + 1) x with
            | some v => some v
            | none => List.lookup x (mapSet acc.gmap g.id acc.nextG)) =
          match
            (match seqAssign (rest.map Group.id) (acc.nextG + 1) x with
             | some v => some v
             | none => if g.id = x then some acc.nextG else none) with
          | some v => some v
          | none => List.lookup x acc.gmap
      rw [lookup_mapSet]
      cases seqAssign (rest.map Group.id) (acc.nextG + 1) x with
      | some v => rfl
      | none =>
          by_cases hgx : g.id = x
          · simp [hgx]
          · have hxg : ¬x = g.id := fun hh => hgx hh.symm
            simp [hgx, hxg]

theorem buildGroups_nextL (loras : List Lora) (col : List Nat) :
    ∀ (gs : List Group) (acc : BuildAcc),
      (buildGroups loras col gs acc).nextL = acc.nextL + (groupBuckets gs loras).length := by
  intro gs
  induction gs with
  | nil => intro acc; simp [buildGroups, groupBuckets]
  | cons g rest ih =>
      intro acc
      rw [buildGroups, ih, buildGroupLoras_nextL]
      simp [groupBuckets, bucketOf]
      omega

theorem buildGroups_lmap_lookup (loras : List Lora) (col : List Nat) :
    ∀ (gs : List Group) (acc : BuildAcc) (x : Nat),
      List.lookup x (buildGroups loras col gs acc).lmap =
        match seqAssign ((groupBuckets gs loras).map Lora.id) acc.nextL x with
        | some v => some v
        | none => List.lookup x acc.lmap := by
  intro gs
  induction gs with
  | nil =>
      intro acc x
      show List.lookup x acc.lmap =
        match seqAssign (List.map Lora.id []) acc.nextL x with
        | some v => some v
        | none => List.lookup x acc.lmap
      cases List.lookup x acc.lmap <;> rfl
  | cons g rest ih =>
      intro acc x
      have step1 : List.lookup x (buildGroups loras col (g :: rest) acc).lmap =
          match seqAssign ((groupBuckets rest loras).map Lora.id)
              (acc.nextL + (bucketOf loras g).length) x with
          | some v => some v
          | none =>
              match seqAssign ((bucketOf loras g).map Lora.id) acc.nextL x with
              | some v => some v
              | none => List.lookup x acc.lmap := by
        rw [buildGroups, ih, buildGroupLoras_lmap_lookup, buildGroupLoras_nextL]
        rfl
      rw [step1]
      have hgb : groupBuckets (g :: rest) loras =
          bucketOf loras g ++ groupBuckets rest loras := by
        simp [groupBuckets]
      rw [hgb, List.map_append, seqAssign_append]
      have hlen : ((bucketOf loras g).map Lora.id).length = (bucketOf loras g).length := by
        simp
      rw [hlen]
      cases seqAssign ((groupBuckets rest loras).map Lora.id)
          (acc.nextL + (bucketOf loras g).length) x with
      | some v => cases seqAssign ((bucketOf loras g).map Lora.id) acc.nextL x <;> rfl
      | none => cases seqAssign ((bucketOf loras g).map Lora.id) acc.nextL x <;> rfl

theorem buildGroups_ws (loras : List Lora) (col : List Nat) :
    ∀ (gs : List Group) (acc : BuildAcc),
      (buildGroups loras col gs acc).ws = acc.ws ++ wsSpec gs loras col acc.nextG acc.nextL := by
  intro gs
  induction gs with
  | nil => intro acc; simp [buildGroups, wsSpec]
  | cons g rest ih =>
      intro acc
      rw [buildGroups, ih, buildGroupLoras_ws, buildGroupLoras_nextG, buildGroupLoras_nextL]
      simp only [wsSpec, List.append_assoc]
      rfl

/- ------------------------------------------------------------------
Master characterization of rebuildUI.
------------------------------------------------------------------ -/

theorem rebuildUI_def (n : NodeState) :
    rebuildUI n =
      { n with
        dynWidgets := (rebuildAcc n.loraState n.collapsedGroups).ws,
        loraState :=
          { groups := updateGroupIds (rebuildAcc n.loraState n.collapsedGroups).gmap
              n.loraState.groups,
            loras := updateLoraIds (rebuildAcc n.loraState n.collapsedGroups).gmap
              (rebuildAcc n.loraState n.collapsedGroups).lmap n.loraState.loras },
        nextGroupId := (rebuildAcc n.loraState n.collapsedGroups).nextG,
        nextLoraId := (rebuildAcc n.loraState n.collapsedGroups).nextL } := rfl

theorem rebuildAcc_gmap_lookup (s : LoraState) (col : List Nat) (x : Nat) :
    List.lookup x (rebuildAcc s col).gmap = gidLookup s x := by
  unfold rebuildAcc
  rw [buildUngrouped_gmap, buildGroups_gmap_lookup]
  unfold gidLookup
  cases seqAssign (s.groups.map Group.id) 1 x <;> rfl

theorem rebuildAcc_nextG (s : LoraState) (col : List Nat) :
    (rebuildAcc s col).nextG = s.groups.length + 1 := by
  unfold rebuildAcc
  rw [buildUngrouped_nextG, buildGroups_nextG]
  simp [Nat.add_comm]

theorem rebuildAcc_nextL (s : LoraState) (col : List Nat) :
    (rebuildAcc s col).nextL = (buildSeq s).length + 1 := by
  unfold rebuildAcc
  rw [buildUngrouped_nextL, buildGroups_nextL]
  show 1 + (groupBuckets s.groups s.loras).length + (unBucket s.loras).length =
    (buildSeq s).length + 1
  simp [buildSeq]
  omega

theorem rebuildAcc_lmap_lookup (s : LoraState) (col : List Nat) (x : Nat) :
    List.lookup x (rebuildAcc s col).lmap = lidLookup s x := by
  unfold rebuildAcc
  rw [buildUngrouped_lmap_lookup, buildGroups_lmap_lookup, buildGroups_nextL]
  unfold lidLookup buildSeq
  rw [List.map_append, seqAssign_append]
  have hlen : ((groupBuckets s.groups s.loras).map Lora.id).length =
      (groupBuckets s.groups s.loras).length := by simp
  rw [hlen]
  show (match seqAssign ((unBucket s.loras).map Lora.id)
          (1 + (groupBuckets s.groups s.loras).length) x with
        | some v => some v
        | none =>
            match seqAssign ((groupBuckets s.groups s.loras).map Lora.id) 1 x with
            | some v => some v
            | none => none) =
      match seqAssign ((unBucket s.loras).map Lora.id)
          (1 + (groupBuckets s.groups s.loras).length) x with
      | some v => some v
      | none => seqAssign ((groupBuckets s.groups s.loras).map Lora.id) 1 x
  cases seqAssign ((unBucket s.loras).map Lora.id)
      (1 + (groupBuckets s.groups s.loras).length) x with
  | some v => rfl
  | none => cases seqAssign ((groupBuckets s.groups s.loras).map Lora.id) 1 x <;> rfl

theorem rebuildAcc_ws (s : LoraState) (col : List Nat) :
    (rebuildAcc s col).ws = rebuildWidgets s col := by
  unfold rebuildAcc
  rw [buildUngrouped_ws, buildGroups_ws, buildGroups_nextL]
  show [] ++ wsSpec s.groups s.loras col 1 1
      ++ lorasChunk (s.loras.filter (fun l => jsFalsyGid l.group_id))
        (1 + (groupBuckets s.groups s.loras).length) none = rebuildWidgets s col
  rw [rebuildWidgets]
  simp [unBucket, Nat.add_comm]

theorem rebuildUI_groups (n : NodeState) :
    (rebuildUI n).loraState.groups = n.loraState.groups.map (updGroupSpec n.loraState) := by
  rw [rebuildUI_def]
  show updateGroupIds (rebuildAcc n.loraState n.collapsedGroups).gmap n.loraState.groups =
    n.loraState.groups.map (updGroupSpec n.loraState)
  unfold updateGroupIds
  apply List.map_congr_left
  intro g _
  rw [rebuildAcc_gmap_lookup]
  cases hg : gidLookup n.loraState g.id with
  | some v =>
      have hv : 1 ≤ v := seqAssign_ge _ 1 g.id v hg
      have hv0 : v ≠ 0 := by omega
      simp [updGroupSpec, hg, hv0]
  | none => simp [updGroupSpec, hg]

theorem rebuildUI_loras (n : NodeState) :
    (rebuildUI n).loraState.loras = n.loraState.loras.map (updLoraSpec n.loraState) := by
  rw [rebuildUI_def]
  show updateLoraIds (rebuildAcc n.loraState n.collapsedGroups).gmap
      (rebuildAcc n.loraState n.collapsedGroups).lmap n.loraState.loras =
    n.loraState.loras.map (updLoraSpec n.loraState)
  unfold updateLoraIds
  apply List.map_congr_left
  intro l _
  rw [rebuildAcc_gmap_lookup, rebuildAcc_lmap_lookup]
  unfold updLoraSpec
  cases hl : lidLookup n.loraState l.id with
  | some v =>
      have hv : 1 ≤ v := seqAssign_ge _ 1 l.id v hl
      have hv0 : v ≠ 0 := by omega
      by_cases ht : jsTruthyGid l.group_id
      · cases hg : gidLookup n.loraState (l.group_id.getD 0) with
        | some w => simp [ht, hg, hv0]
        | none => simp [ht, hg, hv0]
      · simp [ht, hv0]
  | none =>
      by_cases ht : jsTruthyGid l.group_id
      · cases hg : gidLookup n.loraState (l.group_id.getD 0) with
        | some w => simp [ht, hg]
        | none => simp [ht, hg]
      · simp [ht]

theorem rebuildUI_dynWidgets (n : NodeState) :
    (rebuildUI n).dynWidgets = rebuildWidgets n.loraState n.collapsedGroups := by
  rw [rebuildUI_def]
  exact rebuildAcc_ws n.loraState n.collapsedGroups

theorem rebuildUI_nextGroupId (n : NodeState) :
    (rebuildUI n).nextGroupId = n.loraState.groups.length + 1 := by
  rw [rebuildUI_def]
  exact rebuildAcc_nextG n.loraState n.collapsedGroups

theorem rebuildUI_nextLoraId (n : NodeState) :
    (rebuildUI n).nextLoraId = (buildSeq n.loraState).length + 1 := by
  rw [rebuildUI_def]
  exact rebuildAcc_nextL n.loraState n.collapsedGroups

theorem rebuildUI_collapsedGroups (n : NodeState) :
    (rebuildUI n).collapsedGroups = n.collapsedGroups := rfl

theorem rebuildUI_stackDataValue (n : NodeState) :
    (rebuildUI n).stackDataValue = n.stackDataValue := rfl

theorem rebuildUI_localCache (n : NodeState) :
    (rebuildUI n).localCache = n.localCache := rfl

theorem rebuildUI_saving (n : NodeState) :
    (rebuildUI n).saving = n.saving := rfl

theorem rebuildUI_nodeId (n : NodeState) :
    (rebuildUI n).nodeId = n.nodeId := rfl

/- ------------------------------------------------------------------
Shared helpers: persistence bridge behaviour, field preservation,
extensionality.
------------------------------------------------------------------ -/

theorem saveState_loraState (n : NodeState) : (saveState n).loraState = n.loraState := by
  unfold saveState
  by_cases h : n.saving
  · simp [h]
  · by_cases h2 : n.nodeId ≠ 0 <;> simp [h, h2]

theorem saveState_saving (n : NodeState) : (saveState n).saving = n.saving := by
  unfold saveState
  by_cases h : n.saving
  · simp [h]
  · by_cases h2 : n.nodeId ≠ 0 <;> simp [h, h2]

theorem saveState_stackDataValue (n : NodeState) (h : n.saving = false) :
    (saveState n).stackDataValue = DocValue.json n.loraState := by
  unfold saveState
  rw [h]
  by_cases h2 : n.nodeId ≠ 0 <;> simp [h2]

theorem saveState_localCache_self (n : NodeState) (h : n.saving = false)
    (hc : n.localCache = some n.loraState) :
    (saveState n).localCache = some n.loraState := by
  unfold saveState
  rw [h]
  by_cases h2 : n.nodeId ≠ 0 <;> simp [h2, hc]

theorem restoreState_json (n : NodeState) (S : LoraState)
    (h : n.stackDataValue = DocValue.json S) :
    restoreState n = rebuildUI { clearDynamicWidgets n with loraState := S } := by
  obtain ⟨ls, ng, nl, cg, dw, sdv, lc, ni, sg⟩ := n
  simp only at h
  subst h
  simp [restoreState, clearDynamicWidgets]

theorem restoreState_empty_cache (n : NodeState) (S : LoraState)
    (hempty : n.stackDataValue = DocValue.empty) (hcache : n.localCache = some S)
    (hsv : n.saving = false) :
    restoreState n =
      rebuildUI { clearDynamicWidgets (saveState { n with loraState := S })
        with loraState := S } := by
  obtain ⟨ls, ng, nl, cg, dw, sdv, lc, ni, sg⟩ := n
  simp only at hempty hcache hsv
  subst hempty hcache hsv
  by_cases h2 : ni ≠ 0 <;>
    simp [restoreState, saveState, clearDynamicWidgets, h2]

theorem updGroupSpec_fields (s : LoraState) (g : Group) :
    groupFields (updGroupSpec s g) = groupFields g := by
  unfold updGroupSpec
  cases gidLookup s g.id <;> rfl

theorem updGroupSpec_index (s : LoraState) (g : Group) :
    (updGroupSpec s g).index = g.index := by
  unfold updGroupSpec
  cases gidLookup s g.id <;> rfl

theorem updLoraSpec_fields (s : LoraState) (l : Lora) :
    loraFields (updLoraSpec s l) = loraFields l := by
  unfold updLoraSpec
  cases lidLookup s l.id <;>
    by_cases ht : jsTruthyGid l.group_id <;>
      simp [ht] <;> cases gidLookup s (l.group_id.getD 0) <;> rfl

theorem updLoraSpec_id (s : LoraState) (l : Lora) :
    (updLoraSpec s l).id = (lidLookup s l.id).getD l.id := by
  unfold updLoraSpec
  cases lidLookup s l.id <;>
    by_cases ht : jsTruthyGid l.group_id <;>
      simp [ht] <;> cases gidLookup s (l.group_id.getD 0) <;> rfl

theorem groupFields_ext (a b : Group) (hid : a.id = b.id)
    (hf : groupFields a = groupFields b) : a = b := by
  cases a; cases b
  simp [groupFields] at hid hf
  simp [hid, hf.1, hf.2.1, hf.2.2]

theorem loraState_ext (a b : LoraState) (h1 : a.groups = b.groups)
    (h2 : a.loras = b.loras) : a = b := by
  cases a; cases b
  simp_all

theorem nodeState_ext (a b : NodeState)
    (h1 : a.loraState = b.loraState) (h2 : a.nextGroupId = b.nextGroupId)
    (h3 : a.nextLoraId = b.nextLoraId) (h4 : a.collapsedGroups = b.collapsedGroups)
    (h5 : a.dynWidgets = b.dynWidgets) (h6 : a.stackDataValue = b.stackDataValue)
    (h7 : a.localCache = b.localCache) (h8 : a.nodeId = b.nodeId)
    (h9 : a.saving = b.saving) : a = b := by
  cases a; cases b
  simp_all

theorem jsFindIndex_eq_none {α : Type} (p : α → Bool) :
    ∀ (xs : List α), (∀ a ∈ xs, p a = false) → jsFindIndex p xs = none := by
  intro xs
  induction xs with
  | nil => intro _; rfl
  | cons x t ih =>
      intro h
      unfold jsFindIndex
      rw [h x (List.mem_cons_self x t)]
      simp [ih (fun a ha => h a (List.mem_cons_of_mem x ha))]

theorem jsFindIndex_lt {α : Type} (p : α → Bool) :
    ∀ (xs : List α) (i : Nat), jsFindIndex p xs = some i → i < xs.length := by
  intro xs
  induction xs with
  | nil => intro i h; simp [jsFindIndex] at h
  | cons x t ih =>
      intro i h
      unfold jsFindIndex at h
      by_cases hp : p x
      · simp [hp] at h
        simp [← h]
      · simp [hp] at h
        obtain ⟨j, hj, hij⟩ := h
        have := ih j hj
        simp
        omega

theorem reindexFrom_length :
    ∀ (k : Nat) (gs : List Group), (reindexFrom k gs).length = gs.length := by
  intro k gs
  induction gs generalizing k with
  | nil => rfl
  | cons g rest ih => simp [reindexFrom, ih]

theorem reindexFrom_index :
    ∀ (k : Nat) (gs : List Group),
      (reindexFrom k gs).map Group.index = List.range' k gs.length := by
  intro k gs
  induction gs generalizing k with
  | nil => rfl
  | cons g rest ih => simp [reindexFrom, List.range', ih]

theorem reindexFrom_ceilings :
    ∀ (k : Nat) (gs : List Group),
      (reindexFrom k gs).map groupCeilings = gs.map groupCeilings := by
  intro k gs
  induction gs generalizing k with
  | nil => rfl
  | cons g rest ih => simp [reindexFrom, ih]; rfl

theorem updGroupSpec_ceilings (s : LoraState) (g : Group) :
    groupCeilings (updGroupSpec s g) = groupCeilings g := by
  unfold updGroupSpec
  cases gidLookup s g.id <;> rfl

theorem jsTruthyGid_of_ne (k : Nat) (hk : k ≠ 0) : jsTruthyGid (some k) = true := by
  cases k with
  | zero => exact absurd rfl hk
  | succ m => rfl

theorem flatMap_congr {α β : Type} (l : List α) (f g : α → List β)
    (h : ∀ a ∈ l, f a = g a) : l.flatMap f = l.flatMap g := by
  induction l with
  | nil => rfl
  | cons a t ih =>
      simp only [List.flatMap_cons]
      rw [h a (List.mem_cons_self a t),
        ih (fun b hb => h b (List.mem_cons_of_mem a hb))]

theorem groupBuckets_congr (gs : List Group) (A B : List Lora)
    (h : ∀ g ∈ gs, bucketOf A g = bucketOf B g) :
    groupBuckets gs A = groupBuckets gs B :=
  flatMap_congr gs _ _ h

theorem wsSpec_buckets_congr (col : List Nat) (A B : List Lora) :
    ∀ (gs : List Group) (kg kl : Nat),
      (∀ g ∈ gs, bucketOf A g = bucketOf B g) →
      wsSpec gs A col kg kl = wsSpec gs B col kg kl := by
  intro gs
  induction gs with
  | nil => intro kg kl _; rfl
  | cons g rest ih =>
      intro kg kl hb
      have hg := hb g (List.mem_cons_self g rest)
      simp only [wsSpec]
      rw [hg, ih (kg + 1) (kl + (bucketOf B g).length)
        (fun g2 hg2 => hb g2 (List.mem_cons_of_mem g hg2))]

theorem filter_middle_false {α : Type} (p : α → Bool) (pre post : List α) (l : α)
    (h : p l = false) :
    List.filter p (pre ++ l :: post) = List.filter p (pre ++ post) := by
  simp [List.filter_append, List.filter_cons, h]

/- ------------------------------------------------------------------
Claim C4 — cascade delete.
------------------------------------------------------------------ -/

/-- C4: when a group with id gid exists (the program finds it at index
idx), removeGroup removes exactly the items whose group_id equals gid
(all other items survive in order with every non-id field intact),
removes that one group (the survivors keep their ceilings in order),
and the remaining groups carry index values 1..N in list order. -/
theorem c4_cascade_delete (n : NodeState) (gid idx : Nat)
    (h : jsFindIndex (fun g => g.id == gid) n.loraState.groups = some idx) :
    (removeGroup n gid).loraState.loras.map loraFields =
        (n.loraState.loras.filter (fun l => l.group_id != some gid)).map loraFields ∧
      (removeGroup n gid).loraState.groups.map groupCeilings =
        (n.loraState.groups.eraseIdx idx).map groupCeilings ∧
      (removeGroup n gid).loraState.groups.map Group.index =
        List.range' 1 (n.loraState.groups.length - 1) ∧
      (removeGroup n gid).loraState.groups.length = n.loraState.groups.length - 1 := by
  have hlt : idx < n.loraState.groups.length := jsFindIndex_lt _ _ _ h
  have hrg : removeGroup n gid = saveState (rebuildUI
      { n with loraState :=
        { groups := reindexFrom 1 (n.loraState.groups.eraseIdx idx),
          loras := n.loraState.loras.filter (fun l => l.group_id != some gid) } }) := by
    unfold removeGroup
    rw [h]
  have herase : (n.loraState.groups.eraseIdx idx).length =
      n.loraState.groups.length - 1 := by
    rw [List.length_eraseIdx]
    simp [hlt]
  refine ⟨?_, ?_, ?_, ?_⟩
  · rw [hrg, saveState_loraState, rebuildUI_loras]
    show ((n.loraState.loras.filter (fun l => l.group_id != some gid)).map
        (updLoraSpec _)).map loraFields = _
    rw [List.map_map]
    exact List.map_congr_left (fun l _ => updLoraSpec_fields _ l)
  · rw [hrg, saveState_loraState, rebuildUI_groups]
    show ((reindexFrom 1 (n.loraState.groups.eraseIdx idx)).map
        (updGroupSpec _)).map groupCeilings = _
    rw [List.map_map]
    refine Eq.trans (List.map_congr_left (fun g _ => updGroupSpec_ceilings _ g)) ?_
    exact reindexFrom_ceilings 1 _
  · rw [hrg, saveState_loraState, rebuildUI_groups]
    show ((reindexFrom 1 (n.loraState.groups.eraseIdx idx)).map
        (updGroupSpec _)).map Group.index = _
    rw [List.map_map]
    refine Eq.trans (List.map_congr_left (fun g _ => updGroupSpec_index _ g)) ?_
    rw [reindexFrom_index, herase]
  · rw [hrg, saveState_loraState, rebuildUI_groups]
    show ((reindexFrom 1 (n.loraState.groups.eraseIdx idx)).map (updGroupSpec _)).length = _
    rw [List.length_map, reindexFrom_length, herase]

/-- C4 (witness): cascade delete on the concrete two-group node. -/
theorem c4_cascade_delete_witness :
    (removeGroup scnRemoveNode 1).loraState.loras.map loraFields =
        (scnRemoveNode.loraState.loras.filter
          (fun l => l.group_id != some 1)).map loraFields ∧
      (removeGroup scnRemoveNode 1).loraState.groups.map groupCeilings =
        (scnRemoveNode.loraState.groups.eraseIdx 0).map groupCeilings ∧
      (removeGroup scnRemoveNode 1).loraState.groups.map Group.index =
        List.range' 1 (scnRemoveNode.loraState.groups.length - 1) ∧
      (removeGroup scnRemoveNode 1).loraState.groups.length =
        scnRemoveNode.loraState.groups.length - 1 :=
  c4_cascade_delete scnRemoveNode 1 0 (by decide)

theorem updGroupSpec_rename (s : LoraState) (g : Group) :
    updGroupSpec s g =
      renameGroup (fun x => (gidLookup s x).getD x) g := by
  obtain ⟨gi, gx, gm, gc⟩ := g
  unfold updGroupSpec renameGroup
  cases h : gidLookup s gi <;> simp [h]

theorem updLoraSpec_rename (s : LoraState) (l : Lora)
    (hl : l.group_id = none ∨ ∃ g ∈ s.groups, g.id ≠ 0 ∧ l.group_id = some g.id) :
    updLoraSpec s l =
      renameLora (fun x => (gidLookup s x).getD x)
        (fun x => (lidLookup s x).getD x) l := by
  obtain ⟨a1, a2, a3, a4, a5, a6, a7, a8, a9, a10, a11, a12, a13, a14, a15, a16⟩ := l
  unfold updLoraSpec renameLora
  rcases hl with hnone | ⟨g, hg, hgnz, hgid⟩
  · simp only at hnone
    subst hnone
    cases hid : lidLookup s a1 <;> simp [hid, jsTruthyGid]
  · simp only at hgid
    subst hgid
    have htr : jsTruthyGid (some g.id) = true := jsTruthyGid_of_ne g.id hgnz
    obtain ⟨v, hv⟩ : ∃ v, gidLookup s g.id = some v :=
      seqAssign_mem _ 1 g.id (List.mem_map.mpr ⟨g, hg, rfl⟩)
    cases hid : lidLookup s a1 <;> simp [htr, hid, hv]

theorem mem_buildSeq (s : LoraState) (l : Lora) (hl : l ∈ s.loras)
    (h : l.group_id = none ∨ ∃ g ∈ s.groups, l.group_id = some g.id) :
    l ∈ buildSeq s := by
  rcases h with hnone | ⟨g, hg, hgid⟩
  · apply List.mem_append.mpr
    right
    apply List.mem_filter.mpr
    refine ⟨hl, ?_⟩
    rw [hnone]
    rfl
  · apply List.mem_append.mpr
    left
    apply List.mem_flatMap.mpr
    refine ⟨g, hg, ?_⟩
    apply List.mem_filter.mpr
    refine ⟨hl, ?_⟩
    rw [hgid]
    exact beq_self_eq_true _

theorem count_map_zero (a : Lora) (gs : List Group) (loras : List Lora)
    (h : ∀ g ∈ gs, List.count a (bucketOf loras g) = 0) :
    (gs.map (fun g => List.count a (bucketOf loras g))).sum = 0 := by
  apply List.sum_eq_zero
  intro y hy
  obtain ⟨g, hg, hgy⟩ := List.mem_map.mp hy
  rw [← hgy]
  exact h g hg

theorem count_bucket_zero (a : Lora) (loras : List Lora) (g : Group)
    (h : (a.group_id == some g.id) = false) :
    List.count a (bucketOf loras g) = 0 := by
  rw [List.count_eq_zero]
  intro hmem
  have := (List.mem_filter.mp hmem).2
  rw [h] at this
  exact Bool.false_ne_true this

theorem sum_counts_one_hot (a : Lora) (loras : List Lora) (x : Nat)
    (hax : a.group_id = some x) :
    ∀ (gs : List Group), (gs.map Group.id).Nodup → (∃ g ∈ gs, g.id = x) →
      (gs.map (fun g => List.count a (bucketOf loras g))).sum = List.count a loras := by
  intro gs
  induction gs with
  | nil => intro _ h; simp at h
  | cons g rest ih =>
      intro hnd hex
      have hnd1 : (g.id :: rest.map Group.id).Nodup := by simpa using hnd
      have hnd2 := List.nodup_cons.mp hnd1
      simp only [List.map_cons, List.sum_cons]
      by_cases hgx : g.id = x
      · have hhead : List.count a (bucketOf loras g) = List.count a loras := by
          apply List.count_filter
          rw [hax, hgx]
          exact beq_self_eq_true _
        have hrest : (rest.map (fun g2 => List.count a (bucketOf loras g2))).sum = 0 := by
          apply count_map_zero
          intro g2 hg2
          apply count_bucket_zero
          rw [hax]
          apply beq_eq_false_iff_ne.mpr
          intro hh
          have hx2 : g2.id = x := (Option.some.inj hh).symm
          apply hnd2.1
          rw [hgx, ← hx2]
          exact List.mem_map.mpr ⟨g2, hg2, rfl⟩
        rw [hhead, hrest]
        omega
      · have hhead : List.count a (bucketOf loras g) = 0 := by
          apply count_bucket_zero
          rw [hax]
          exact beq_eq_false_iff_ne.mpr (fun hh => hgx (Option.some.inj hh).symm)
        have hex2 : ∃ g2 ∈ rest, g2.id = x := by
          rcases hex with ⟨g2, hg2, hx2⟩
          rcases List.mem_cons.mp hg2 with hgg | hr
          · exact absurd (hgg ▸ hx2) hgx
          · exact ⟨g2, hr, hx2⟩
        rw [hhead, ih hnd2.2 hex2]
        omega

theorem buildSeq_perm (s : LoraState)
    (hnd : (s.groups.map Group.id).Nodup)
    (hnz : ∀ g ∈ s.groups, g.id ≠ 0)
    (hwf : itemsWellFormed s) :
    (buildSeq s).Perm s.loras := by
  rw [List.perm_iff_count]
  intro a
  unfold buildSeq groupBuckets
  rw [List.count_append, List.count_flatMap]
  by_cases ha : a ∈ s.loras
  · rcases hwf a ha with hnone | ⟨g0, hg0, haid⟩
    · have h1 : (s.groups.map (List.count a ∘ fun g => bucketOf s.loras g)).sum = 0 := by
        apply List.sum_eq_zero
        intro y hy
        obtain ⟨g, hg, hgy⟩ := List.mem_map.mp hy
        rw [← hgy]
        show List.count a (bucketOf s.loras g) = 0
        apply count_bucket_zero
        rw [hnone]
        rfl
      have h2 : List.count a (unBucket s.loras) = List.count a s.loras := by
        apply List.count_filter
        rw [hnone]
        rfl
      rw [h1, h2]
      omega
    · have hx0 : g0.id ≠ 0 := hnz g0 hg0
      have h2 : List.count a (unBucket s.loras) = 0 := by
        rw [List.count_eq_zero]
        intro hmem
        have := (List.mem_filter.mp hmem).2
        rw [haid] at this
        simp [jsFalsyGid, jsTruthyGid_of_ne g0.id hx0] at this
      have h1 : (s.groups.map (List.count a ∘ fun g => bucketOf s.loras g)).sum =
          List.count a s.loras := by
        have := sum_counts_one_hot a s.loras g0.id haid s.groups hnd ⟨g0, hg0, rfl⟩
        simpa [Function.comp] using this
      rw [h1, h2]
      omega
  · have hz : List.count a s.loras = 0 := List.count_eq_zero.mpr ha
    have h1 : (s.groups.map (List.count a ∘ fun g => bucketOf s.loras g)).sum = 0 := by
      apply List.sum_eq_zero
      intro y hy
      obtain ⟨g, hg, hgy⟩ := List.mem_map.mp hy
      rw [← hgy]
      show List.count a (bucketOf s.loras g) = 0
      rw [List.count_eq_zero]
      intro hmem
      exact ha (List.mem_filter.mp hmem).1
    have h2 : List.count a (unBucket s.loras) = 0 := by
      rw [List.count_eq_zero]
      intro hmem
      exact ha (List.mem_filter.mp hmem).1
    rw [h1, h2, hz]

theorem seqAssign_getElem_nodup :
    ∀ (ids : List Nat) (k j : Nat) (hj : j < ids.length), ids.Nodup →
      seqAssign ids k ids[j] = some (k + j) := by
  intro ids
  induction ids with
  | nil => intro k j hj _; simp at hj
  | cons i rest ih =>
      intro k j hj hnd
      have hnd2 := List.nodup_cons.mp hnd
      cases j with
      | zero =>
          show seqAssign (i :: rest) k i = some k
          unfold seqAssign
          rw [seqAssign_eq_none rest (k + 1) i hnd2.1]
          simp
      | succ m =>
          have hm : m < rest.length := by
            simp at hj
            omega
          show seqAssign (i :: rest) k rest[m] = some (k + (m + 1))
          unfold seqAssign
          rw [ih (k + 1) m hm hnd2.2]
          have : k + 1 + m = k + (m + 1) := by omega
          rw [this]

theorem renumber_aux :
    ∀ (gs : List Group) (k : Nat) (L : Nat → Option Nat),
      (∀ (j : Nat) (hj : j < gs.length), L (gs[j].id) = some (k + j)) →
      gs.map (fun g => match L g.id with
        | some v => { g with id := v }
        | none => g) = renumberGroupsFrom k gs := by
  intro gs
  induction gs with
  | nil => intro k L _; rfl
  | cons g rest ih =>
      intro k L hL
      simp only [List.map_cons, renumberGroupsFrom]
      have h0 : L g.id = some k := by
        have := hL 0 (by simp)
        simpa using this
      rw [h0]
      have htail : ∀ (j : Nat) (hj : j < rest.length), L (rest[j].id) = some (k + 1 + j) := by
        intro j hj
        have := hL (j + 1) (by simp; omega)
        simp at this
        rw [this]
        have : k + (j + 1) = k + 1 + j := by omega
        rw [this]
      rw [ih (k + 1) L htail]

theorem updGroupSpec_id (s : LoraState) (g : Group) :
    (updGroupSpec s g).id = (gidLookup s g.id).getD g.id := by
  unfold updGroupSpec
  cases gidLookup s g.id <;> rfl

theorem updLoraSpec_gid_none (s : LoraState) (l : Lora) (h : l.group_id = none) :
    (updLoraSpec s l).group_id = none := by
  unfold updLoraSpec
  rw [h]
  cases lidLookup s l.id <;> simp [jsTruthyGid]

theorem updLoraSpec_gid_some (s : LoraState) (l : Lora) (x w : Nat)
    (hgid : l.group_id = some x) (hx : x ≠ 0) (hw : gidLookup s x = some w) :
    (updLoraSpec s l).group_id = some w := by
  unfold updLoraSpec
  rw [hgid]
  cases lidLookup s l.id <;>
    simp [jsTruthyGid_of_ne x hx, hw]

theorem gid_getD_inj (s : LoraState) :
    ∀ a ∈ s.groups.map Group.id, ∀ b ∈ s.groups.map Group.id,
      (gidLookup s a).getD a = (gidLookup s b).getD b → a = b := by
  intro a ha b hb hab
  obtain ⟨va, hva⟩ := seqAssign_mem (s.groups.map Group.id) 1 a ha
  obtain ⟨vb, hvb⟩ := seqAssign_mem (s.groups.map Group.id) 1 b hb
  unfold gidLookup at hab
  rw [hva, hvb] at hab
  simp at hab
  exact seqAssign_inj _ 1 a b va hva (hab ▸ hvb)

theorem lid_getD_inj (s : LoraState) :
    ∀ a ∈ (buildSeq s).map Lora.id, ∀ b ∈ (buildSeq s).map Lora.id,
      (lidLookup s a).getD a = (lidLookup s b).getD b → a = b := by
  intro a ha b hb hab
  obtain ⟨va, hva⟩ := seqAssign_mem ((buildSeq s).map Lora.id) 1 a ha
  obtain ⟨vb, hvb⟩ := seqAssign_mem ((buildSeq s).map Lora.id) 1 b hb
  unfold lidLookup at hab
  rw [hva, hvb] at hab
  simp at hab
  exact seqAssign_inj _ 1 a b va hva (hab ▸ hvb)

theorem createGroupWidgets_rename (k : Nat) (col : List Nat) (φ : Nat → Nat)
    (g : Group) :
    createGroupWidgets k (renameGroup φ g) col = createGroupWidgets k g col := by
  cases g
  rfl

theorem createGroupWidgets_fields_congr (k : Nat) (col : List Nat) (g g2 : Group)
    (h : groupFields g2 = groupFields g) :
    createGroupWidgets k g2 col = createGroupWidgets k g col := by
  obtain ⟨i1, i2, i3, i4⟩ := g
  obtain ⟨j1, j2, j3, j4⟩ := g2
  simp only [groupFields, Prod.mk.injEq] at h
  obtain ⟨q1, q2, q3⟩ := h
  subst q1 q2 q3
  rfl

theorem createLoraWidgets_fields_congr (k : Nat) (gid : Option Nat) (l l2 : Lora)
    (h : loraFields l2 = loraFields l) :
    createLoraWidgets k gid l2 = createLoraWidgets k gid l := by
  obtain ⟨a1, a2, a3, a4, a5, a6, a7, a8, a9, a10, a11, a12, a13, a14, a15, a16⟩ := l
  obtain ⟨b1, b2, b3, b4, b5, b6, b7, b8, b9, b10, b11, b12, b13, b14, b15, b16⟩ := l2
  simp only [loraFields, Prod.mk.injEq] at h
  obtain ⟨e1, e2, e3, e4, e5, e6, e7, e8, e9, e10, e11, e12, e13, e14⟩ := h
  subst e1 e2 e3 e4 e5 e6 e7 e8 e9 e10 e11 e12 e13 e14
  rfl

theorem lorasChunk_map (u : Lora → Lora) (hu : ∀ l, loraFields (u l) = loraFields l) :
    ∀ (ls : List Lora) (k : Nat) (gid : Option Nat),
      lorasChunk (ls.map u) k gid = lorasChunk ls k gid := by
  intro ls
  induction ls with
  | nil => intro k gid; rfl
  | cons l rest ih =>
      intro k gid
      simp only [List.map_cons, lorasChunk]
      rw [createLoraWidgets_fields_congr k gid l (u l) (hu l), ih]

theorem wsSpec_map (col : List Nat) (A B : List Lora) (rn : Group → Group)
    (u : Lora → Lora) (hu : ∀ l, loraFields (u l) = loraFields l) :
    ∀ (gs : List Group) (kg kl : Nat),
      (∀ g ∈ gs, bucketOf B (rn g) = (bucketOf A g).map u) →
      (∀ g ∈ gs, groupFields (rn g) = groupFields g) →
      wsSpec (gs.map rn) B col kg kl = wsSpec gs A col kg kl := by
  intro gs
  induction gs with
  | nil => intro kg kl _ _; rfl
  | cons g rest ih =>
      intro kg kl hb hf
      simp only [List.map_cons, wsSpec]
      have hbg := hb g (List.mem_cons_self g rest)
      have hfg := hf g (List.mem_cons_self g rest)
      have hcw : createGroupWidgets kg (rn g) col = createGroupWidgets kg g col :=
        createGroupWidgets_fields_congr kg col g (rn g) hfg
      rw [hbg, hcw, lorasChunk_map u hu]
      rw [ih (kg + 1) (kl + ((bucketOf A g).map u).length)
        (fun g2 hg2 => hb g2 (List.mem_cons_of_mem g hg2))
        (fun g2 hg2 => hf g2 (List.mem_cons_of_mem g hg2))]
      simp

theorem bucket_correspond (s : LoraState) (h : itemsWellFormedPos s)
    (g : Group) (hg : g ∈ s.groups) :
    bucketOf (s.loras.map (updLoraSpec s)) (updGroupSpec s g) =
      (bucketOf s.loras g).map (updLoraSpec s) := by
  obtain ⟨v, hv⟩ := seqAssign_mem (s.groups.map Group.id) 1 g.id
    (List.mem_map.mpr ⟨g, hg, rfl⟩)
  have hvid : (updGroupSpec s g).id = v := by
    rw [updGroupSpec_id]
    show (gidLookup s g.id).getD g.id = v
    rw [show gidLookup s g.id = some v from hv]
    rfl
  unfold bucketOf
  rw [List.filter_map]
  congr 1
  apply List.filter_congr
  intro l hl
  show ((updLoraSpec s l).group_id == some (updGroupSpec s g).id) =
    (l.group_id == some g.id)
  rw [hvid]
  rcases h l hl with hnone | ⟨g2, hg2, hg2nz, hgid⟩
  · rw [updLoraSpec_gid_none s l hnone, hnone]
    rfl
  · obtain ⟨w, hw⟩ := seqAssign_mem (s.groups.map Group.id) 1 g2.id
      (List.mem_map.mpr ⟨g2, hg2, rfl⟩)
    rw [updLoraSpec_gid_some s l g2.id w hgid hg2nz hw, hgid]
    by_cases hxg : g2.id = g.id
    · have hwv : w = v := by
        rw [hxg] at hw
        exact Option.some.inj (hw.symm.trans hv)
      rw [hxg, hwv]
      simp
    · have hwv : w ≠ v := fun he =>
        hxg (seqAssign_inj _ 1 g2.id g.id v (he ▸ hw) hv)
      rw [beq_eq_false_iff_ne.mpr (fun hh => hwv (Option.some.inj hh)),
        beq_eq_false_iff_ne.mpr (fun hh => hxg (Option.some.inj hh))]

theorem unbucket_correspond (s : LoraState) (h : itemsWellFormedPos s) :
    unBucket (s.loras.map (updLoraSpec s)) = (unBucket s.loras).map (updLoraSpec s) := by
  unfold unBucket
  rw [List.filter_map]
  congr 1
  apply List.filter_congr
  intro l hl
  show jsFalsyGid (updLoraSpec s l).group_id = jsFalsyGid l.group_id
  rcases h l hl with hnone | ⟨g2, hg2, hg2nz, hgid⟩
  · rw [updLoraSpec_gid_none s l hnone, hnone]
  · obtain ⟨w, hw⟩ := seqAssign_mem (s.groups.map Group.id) 1 g2.id
      (List.mem_map.mpr ⟨g2, hg2, rfl⟩)
    have hw1 : 1 ≤ w := seqAssign_ge _ 1 g2.id w hw
    rw [updLoraSpec_gid_some s l g2.id w hgid hg2nz hw, hgid]
    simp [jsFalsyGid, jsTruthyGid_of_ne w (by omega), jsTruthyGid_of_ne g2.id hg2nz]

theorem groupBuckets_map (s : LoraState) (h : itemsWellFormedPos s) :
    groupBuckets (s.groups.map (updGroupSpec s)) (s.loras.map (updLoraSpec s)) =
      (groupBuckets s.groups s.loras).map (updLoraSpec s) := by
  unfold groupBuckets
  rw [List.flatMap_map]
  rw [flatMap_congr s.groups _ _ (fun g hg => bucket_correspond s h g hg)]
  rw [List.map_flatMap]

theorem buildSeq_map (s : LoraState) (h : itemsWellFormedPos s) :
    buildSeq (updState s) = (buildSeq s).map (updLoraSpec s) := by
  unfold buildSeq
  show groupBuckets (s.groups.map (updGroupSpec s)) (s.loras.map (updLoraSpec s)) ++
      unBucket (s.loras.map (updLoraSpec s)) = _
  rw [groupBuckets_map s h, unbucket_correspond s h, List.map_append]

theorem gidLookup_fix (s : LoraState) (x : Nat)
    (hx : x ∈ s.groups.map Group.id) :
    gidLookup (updState s) ((gidLookup s x).getD x) = gidLookup s x := by
  have hids : (updState s).groups.map Group.id =
      (s.groups.map Group.id).map (fun y => (gidLookup s y).getD y) := by
    show (s.groups.map (updGroupSpec s)).map Group.id = _
    rw [List.map_map, List.map_map]
    exact List.map_congr_left (fun g _ => updGroupSpec_id s g)
  unfold gidLookup
  rw [hids]
  exact seqAssign_map (fun y => (gidLookup s y).getD y) (s.groups.map Group.id)
    (gid_getD_inj s) 1 x hx

theorem lidLookup_fix (s : LoraState) (h : itemsWellFormedPos s) (x : Nat)
    (hx : x ∈ (buildSeq s).map Lora.id) :
    lidLookup (updState s) ((lidLookup s x).getD x) = lidLookup s x := by
  have hids : (buildSeq (updState s)).map Lora.id =
      ((buildSeq s).map Lora.id).map (fun y => (lidLookup s y).getD y) := by
    rw [buildSeq_map s h, List.map_map, List.map_map]
    exact List.map_congr_left (fun l _ => updLoraSpec_id s l)
  unfold lidLookup
  rw [hids]
  exact seqAssign_map (fun y => (lidLookup s y).getD y) ((buildSeq s).map Lora.id)
    (lid_getD_inj s) 1 x hx

theorem updGroupSpec_self (t : LoraState) (g1 : Group)
    (hid : gidLookup t g1.id = some g1.id) : updGroupSpec t g1 = g1 := by
  obtain ⟨i1, i2, i3, i4⟩ := g1
  unfold updGroupSpec
  simp only at hid
  rw [hid]

theorem updLoraSpec_self (t : LoraState) (l1 : Lora)
    (hid : lidLookup t l1.id = some l1.id)
    (hgid : l1.group_id = none ∨
      ∃ w, w ≠ 0 ∧ l1.group_id = some w ∧ gidLookup t w = some w) :
    updLoraSpec t l1 = l1 := by
  obtain ⟨b1, b2, b3, b4, b5, b6, b7, b8, b9, b10, b11, b12, b13, b14, b15, b16⟩ := l1
  simp only at hid
  unfold updLoraSpec
  rw [hid]
  rcases hgid with hnone | ⟨w, hw0, hwid, hwfix⟩
  · simp only at hnone
    subst hnone
    simp [jsTruthyGid]
  · simp only at hwid
    subst hwid
    simp [jsTruthyGid_of_ne w hw0, hwfix]

theorem rebuildWidgets_fix (s : LoraState) (col : List Nat) (h : itemsWellFormedPos s) :
    rebuildWidgets (updState s) col = rebuildWidgets s col := by
  unfold rebuildWidgets
  show wsSpec (s.groups.map (updGroupSpec s)) (s.loras.map (updLoraSpec s)) col 1 1 ++
      lorasChunk (unBucket (s.loras.map (updLoraSpec s)))
        ((groupBuckets (s.groups.map (updGroupSpec s))
          (s.loras.map (updLoraSpec s))).length + 1) none =
      wsSpec s.groups s.loras col 1 1 ++
        lorasChunk (unBucket s.loras) ((groupBuckets s.groups s.loras).length + 1) none
  rw [wsSpec_map col s.loras (s.loras.map (updLoraSpec s)) (updGroupSpec s)
      (updLoraSpec s) (updLoraSpec_fields s) s.groups 1 1
      (fun g hg => bucket_correspond s h g hg)
      (fun g hg => updGroupSpec_fields s g)]
  rw [unbucket_correspond s h, groupBuckets_map s h, List.length_map,
    lorasChunk_map (updLoraSpec s) (updLoraSpec_fields s)]

/- ------------------------------------------------------------------
Claim C8 — rebuild idempotence.
------------------------------------------------------------------ -/

/-- C8 (counterexample): for the state holding one group of id 5 and
one dangling item with group_id 1, the first rebuild creates no
controls for the item, but renumbers the group to id 1; the second
rebuild then captures the item into that group and creates its
controls — the two consecutive rebuilds produce different control
sequences, refuting idempotence over every state. -/
theorem c8_counterexample :
    (rebuildUI (rebuildUI { initNode 1 with loraState := ceStateCapture })).dynWidgets ≠
      (rebuildUI { initNode 1 with loraState := ceStateCapture }).dynWidgets := by
  decide

/-- C8 (amended): for every state in which each item is ungrouped or
points at an existing group with a nonzero id, rebuildUI is literally
idempotent: a second rebuild reproduces the identical node state —
the same control sequence with the same tags in the same order, the
same snapshot and the same counters. -/
theorem c8_rebuild_idempotent (n : NodeState) (h : itemsWellFormedPos n.loraState) :
    rebuildUI (rebuildUI n) = rebuildUI n := by
  have hs1 : (rebuildUI n).loraState = updState n.loraState :=
    loraState_ext _ _ (rebuildUI_groups n) (rebuildUI_loras n)
  have hgfix : ∀ g1 ∈ n.loraState.groups.map (updGroupSpec n.loraState),
      updGroupSpec (updState n.loraState) g1 = g1 := by
    intro g1 hg1
    obtain ⟨g, hg, hgg⟩ := List.mem_map.mp hg1
    obtain ⟨v, hv⟩ := seqAssign_mem (n.loraState.groups.map Group.id) 1 g.id
      (List.mem_map.mpr ⟨g, hg, rfl⟩)
    apply updGroupSpec_self
    rw [← hgg, updGroupSpec_id]
    have hfix := gidLookup_fix n.loraState g.id (List.mem_map.mpr ⟨g, hg, rfl⟩)
    rw [hfix]
    show gidLookup n.loraState g.id = some ((gidLookup n.loraState g.id).getD g.id)
    rw [show gidLookup n.loraState g.id = some v from hv]
    rfl
  have hlfix : ∀ l1 ∈ n.loraState.loras.map (updLoraSpec n.loraState),
      updLoraSpec (updState n.loraState) l1 = l1 := by
    intro l1 hl1
    obtain ⟨l, hl, hll⟩ := List.mem_map.mp hl1
    have hlmem : l ∈ buildSeq n.loraState := by
      apply mem_buildSeq _ l hl
      rcases h l hl with hnone | ⟨g2, hg2, _, hgid⟩
      · exact Or.inl hnone
      · exact Or.inr ⟨g2, hg2, hgid⟩
    have hidmem : l.id ∈ (buildSeq n.loraState).map Lora.id :=
      List.mem_map.mpr ⟨l, hlmem, rfl⟩
    obtain ⟨w, hw⟩ := seqAssign_mem ((buildSeq n.loraState).map Lora.id) 1 l.id hidmem
    apply updLoraSpec_self
    · rw [← hll, updLoraSpec_id]
      have hfix := lidLookup_fix n.loraState h l.id hidmem
      rw [hfix]
      show lidLookup n.loraState l.id = some ((lidLookup n.loraState l.id).getD l.id)
      rw [show lidLookup n.loraState l.id = some w from hw]
      rfl
    · rcases h l hl with hnone | ⟨g2, hg2, hg2nz, hgid⟩
      · left
        rw [← hll]
        exact updLoraSpec_gid_none n.loraState l hnone
      · right
        obtain ⟨w2, hw2⟩ := seqAssign_mem (n.loraState.groups.map Group.id) 1 g2.id
          (List.mem_map.mpr ⟨g2, hg2, rfl⟩)
        have hw21 : 1 ≤ w2 := seqAssign_ge _ 1 g2.id w2 hw2
        refine ⟨w2, by omega, ?_, ?_⟩
        · rw [← hll]
          exact updLoraSpec_gid_some n.loraState l g2.id w2 hgid hg2nz hw2
        · have hfix := gidLookup_fix n.loraState g2.id (List.mem_map.mpr ⟨g2, hg2, rfl⟩)
          have hgd : (gidLookup n.loraState g2.id).getD g2.id = w2 := by
            rw [show gidLookup n.loraState g2.id = some w2 from hw2]
            rfl
          rw [hgd] at hfix
          rw [hfix]
          exact hw2
  apply nodeState_ext
  · apply loraState_ext
    · rw [rebuildUI_groups (rebuildUI n), hs1]
      show (updState n.loraState).groups.map (updGroupSpec (updState n.loraState)) =
        n.loraState.groups.map (updGroupSpec n.loraState)
      calc (updState n.loraState).groups.map (updGroupSpec (updState n.loraState)) =
          (n.loraState.groups.map (updGroupSpec n.loraState)).map id :=
            List.map_congr_left (fun g1 hg1 => hgfix g1 hg1)
        _ = n.loraState.groups.map (updGroupSpec n.loraState) := List.map_id _
    · rw [rebuildUI_loras (rebuildUI n), hs1]
      show (updState n.loraState).loras.map (updLoraSpec (updState n.loraState)) =
        n.loraState.loras.map (updLoraSpec n.loraState)
      calc (updState n.loraState).loras.map (updLoraSpec (updState n.loraState)) =
          (n.loraState.loras.map (updLoraSpec n.loraState)).map id :=
            List.map_congr_left (fun l1 hl1 => hlfix l1 hl1)
        _ = n.loraState.loras.map (updLoraSpec n.loraState) := List.map_id _
  · rw [rebuildUI_nextGroupId (rebuildUI n), rebuildUI_nextGroupId n, hs1]
    show (n.loraState.groups.map (updGroupSpec n.loraState)).length + 1 =
      n.loraState.groups.length + 1
    rw [List.length_map]
  · rw [rebuildUI_nextLoraId (rebuildUI n), rebuildUI_nextLoraId n, hs1,
      buildSeq_map n.loraState h, List.length_map]
  · rfl
  · rw [rebuildUI_dynWidgets (rebuildUI n), rebuildUI_dynWidgets n,
      rebuildUI_collapsedGroups, hs1]
    exact rebuildWidgets_fix n.loraState n.collapsedGroups h
  · rfl
  · rfl
  · rfl
  · rfl

/-- C8 (witness): idempotence at the concrete two-group node. -/
theorem c8_rebuild_idempotent_witness :
    itemsWellFormedPos scnRemoveNode.loraState ∧
      rebuildUI (rebuildUI scnRemoveNode) = rebuildUI scnRemoveNode :=
  ⟨by unfold itemsWellFormedPos; decide,
   c8_rebuild_idempotent scnRemoveNode (by unfold itemsWellFormedPos; decide)⟩

/- ------------------------------------------------------------------
Claim C9 — rebuild id renumbering.
------------------------------------------------------------------ -/

/-- C9 (counterexample): with two groups sharing id 1 (and no items,
so the claimed premise on items holds vacuously), a rebuild gives BOTH
groups the id 2 — the last Map.set wins — instead of the claimed
sequential ids 1, 2. -/
theorem c9_counterexample :
    itemsWellFormed ceStateDupIds ∧
      (rebuildUI { initNode 1 with
          loraState := ceStateDupIds }).loraState.groups.map Group.id = [2, 2] ∧
      ¬ (rebuildUI { initNode 1 with
          loraState := ceStateDupIds }).loraState.groups.map Group.id =
        List.range' 1 ceStateDupIds.groups.length := by
  refine ⟨by unfold itemsWellFormed; decide, by decide, by decide⟩

/-- C9 (amended): for every snapshot with distinct nonzero group ids,
distinct item ids and no dangling items, a full rebuild renumbers the
groups 1..N in display order, gives every item the position of its
occurrence in the build sequence (its group bucket in group order,
then the ungrouped items) plus one, remaps each grouped item to its
owning group's new id, and sets both counters one past the highest
assigned id. -/
theorem c9_rebuild_renumbering (n : NodeState) (h : snapshotWF n.loraState) :
    (rebuildUI n).loraState.groups = renumberGroupsFrom 1 n.loraState.groups ∧
      (rebuildUI n).loraState.loras = n.loraState.loras.map (fun l =>
        { l with
          id := ((buildSeq n.loraState).map Lora.id).indexOf l.id + 1,
          group_id := l.group_id.map
            (fun x => (n.loraState.groups.map Group.id).indexOf x + 1) }) ∧
      (rebuildUI n).nextGroupId = n.loraState.groups.length + 1 ∧
      (rebuildUI n).nextLoraId = n.loraState.loras.length + 1 := by
  obtain ⟨hgnd, hgnz, hlnd, hwf⟩ := h
  have hperm : (buildSeq n.loraState).Perm n.loraState.loras :=
    buildSeq_perm n.loraState hgnd hgnz hwf
  have hseqnd : ((buildSeq n.loraState).map Lora.id).Nodup :=
    ((hperm.map Lora.id).nodup_iff).mpr hlnd
  refine ⟨?_, ?_, ?_, ?_⟩
  · rw [rebuildUI_groups]
    have haux : ∀ (j : Nat) (hj : j < n.loraState.groups.length),
        gidLookup n.loraState (n.loraState.groups[j].id) = some (1 + j) := by
      intro j hj
      unfold gidLookup
      have hj2 : j < (n.loraState.groups.map Group.id).length := by simpa using hj
      have h1 := seqAssign_getElem_nodup (n.loraState.groups.map Group.id) 1 j hj2 hgnd
      have h2 : (n.loraState.groups.map Group.id)[j] = n.loraState.groups[j].id := by
        simp
      rw [h2] at h1
      exact h1
    exact renumber_aux n.loraState.groups 1 (gidLookup n.loraState) haux
  · rw [rebuildUI_loras]
    apply List.map_congr_left
    intro l hlm
    have hmem : l ∈ buildSeq n.loraState := by
      apply mem_buildSeq _ l hlm
      rcases hwf l hlm with hnone | ⟨g, hg, hgid⟩
      · exact Or.inl hnone
      · exact Or.inr ⟨g, hg, hgid⟩
    have hid : lidLookup n.loraState l.id =
        some (1 + ((buildSeq n.loraState).map Lora.id).indexOf l.id) := by
      unfold lidLookup
      exact seqAssign_nodup _ 1 l.id hseqnd (List.mem_map.mpr ⟨l, hmem, rfl⟩)
    rw [Nat.add_comm] at hid
    rcases hwf l hlm with hnone | ⟨g, hg, hgid⟩
    · obtain ⟨a1, a2, a3, a4, a5, a6, a7, a8, a9, a10, a11, a12, a13, a14, a15, a16⟩ := l
      simp only at hnone hid
      subst hnone
      unfold updLoraSpec
      simp [hid, jsTruthyGid]
    · have hx0 : g.id ≠ 0 := hgnz g hg
      have hgl : gidLookup n.loraState g.id =
          some (1 + (n.loraState.groups.map Group.id).indexOf g.id) := by
        unfold gidLookup
        exact seqAssign_nodup _ 1 g.id hgnd (List.mem_map.mpr ⟨g, hg, rfl⟩)
      rw [Nat.add_comm] at hgl
      obtain ⟨a1, a2, a3, a4, a5, a6, a7, a8, a9, a10, a11, a12, a13, a14, a15, a16⟩ := l
      simp only at hgid hid
      subst hgid
      unfold updLoraSpec
      simp [hid, hgl, jsTruthyGid_of_ne g.id hx0]
  · exact rebuildUI_nextGroupId n
  · rw [rebuildUI_nextLoraId, hperm.length_eq]

/-- C9 (witness): the amended renumbering on the concrete node with
two groups, one grouped item and one ungrouped item. -/
theorem c9_rebuild_renumbering_witness :
    (rebuildUI scnRemoveNode).loraState.groups =
        renumberGroupsFrom 1 scnRemoveNode.loraState.groups ∧
      (rebuildUI scnRemoveNode).loraState.loras = scnRemoveNode.loraState.loras.map
        (fun l =>
          { l with
            id := ((buildSeq scnRemoveNode.loraState).map Lora.id).indexOf l.id + 1,
            group_id := l.group_id.map
              (fun x => (scnRemoveNode.loraState.groups.map Group.id).indexOf x + 1) }) ∧
      (rebuildUI scnRemoveNode).nextGroupId = scnRemoveNode.loraState.groups.length + 1 ∧
      (rebuildUI scnRemoveNode).nextLoraId = scnRemoveNode.loraState.loras.length + 1 :=
  c9_rebuild_renumbering scnRemoveNode
    (by unfold snapshotWF itemsWellFormed; decide)

/- ------------------------------------------------------------------
Claim C1 — document-path round trip.
------------------------------------------------------------------ -/

/-- C1 (counterexample): the snapshot ceStateGidZero is well-formed in
the words of the claim (its single item points at the existing group
of id 0), yet the save/load round trip is NOT structurally equal to it
up to id renumbering: the item ends up with the null group_id (its
membership in the id-0 group is lost, because 0 is falsy in
JavaScript), which no renaming of ids can produce. -/
theorem c1_counterexample :
    itemsWellFormed ceStateGidZero ∧
      ¬ EqUpToRenumbering ceStateGidZero (docRoundTrip ceStateGidZero).loraState := by
  constructor
  · unfold itemsWellFormed
    decide
  · rintro ⟨φg, φi, heq⟩
    have hmap : (docRoundTrip ceStateGidZero).loraState.loras.map Lora.group_id =
        [none] := by decide
    rw [heq] at hmap
    simp [renameState, renameLora, ceStateGidZero, mkBareLora] at hmap

/-- C1 (amended): for every snapshot whose items are ungrouped or
point at an existing group with a nonzero id, the document-path round
trip (save, then load on the produced document-field string) yields a
snapshot structurally equal to the original up to id renumbering —
group order, item order, membership and every non-id field value are
preserved by construction of the renaming. -/
theorem c1_round_trip_amended (s : LoraState) (h : itemsWellFormedPos s) :
    EqUpToRenumbering s (docRoundTrip s).loraState := by
  have hsd : (saveState { initNode 1 with loraState := s }).stackDataValue
      = DocValue.json s := saveState_stackDataValue _ rfl
  have hrt : docRoundTrip s =
      rebuildUI { clearDynamicWidgets (saveState { initNode 1 with loraState := s })
        with loraState := s } := by
    unfold docRoundTrip
    exact restoreState_json _ s hsd
  refine ⟨fun x => (gidLookup s x).getD x, fun x => (lidLookup s x).getD x, ?_⟩
  rw [hrt]
  apply loraState_ext
  · rw [rebuildUI_groups]
    show s.groups.map (updGroupSpec s) = s.groups.map (renameGroup _)
    exact List.map_congr_left (fun g _ => updGroupSpec_rename s g)
  · rw [rebuildUI_loras]
    show s.loras.map (updLoraSpec s) = s.loras.map (renameLora _ _)
    exact List.map_congr_left (fun l hlm => updLoraSpec_rename s l (h l hlm))

/-- C1 (witness): the amended round trip on a concrete well-formed
snapshot with one group and one member item. -/
theorem c1_round_trip_amended_witness :
    itemsWellFormedPos
        { groups := [mkGroup 1 1], loras := [mkBareLora 1 (some 1)] } ∧
      EqUpToRenumbering
        { groups := [mkGroup 1 1], loras := [mkBareLora 1 (some 1)] }
        (docRoundTrip
          { groups := [mkGroup 1 1], loras := [mkBareLora 1 (some 1)] }).loraState :=
  ⟨by unfold itemsWellFormedPos; decide, c1_round_trip_amended
    { groups := [mkGroup 1 1], loras := [mkBareLora 1 (some 1)] }
    (by unfold itemsWellFormedPos; decide)⟩

/- ------------------------------------------------------------------
Claim C10 — dangling items survive invisibly.
------------------------------------------------------------------ -/

/-- C10 (counterexample): an item whose group_id is the falsy number 0
while no group with id 0 exists is dangling in the words of the claim,
yet a rebuild does create controls for it (it lands in the ungrouped
pass), renumbers its id from 5 to 1 and rewrites its group_id to the
null sentinel — so neither 'no controls' nor 'id and group_id
unchanged' holds. -/
theorem c10_counterexample :
    (rebuildUI { initNode 1 with loraState := ceStateGidZeroDangling }).dynWidgets ≠ [] ∧
      (rebuildUI { initNode 1 with
          loraState := ceStateGidZeroDangling }).loraState.loras.map
        (fun l => (l.id, l.group_id)) = [(1, (none : Option Nat))] := by
  decide

/-- C10 (amended): an item whose group_id is a nonzero number that is
no existing group id, and whose own id no other item shares, survives
a rebuild invisibly: the rebuild creates exactly the controls it would
create without the item, the item keeps its position, id, group_id and
every other field, it is excluded from the renumbering, and the
following save serializes it into the document field. -/
theorem c10_dangling_amended (n : NodeState) (pre post : List Lora) (l : Lora) (k : Nat)
    (hsplit : n.loraState.loras = pre ++ l :: post)
    (hgid : l.group_id = some k) (hk : k ≠ 0)
    (hdangle : ∀ g ∈ n.loraState.groups, g.id ≠ k)
    (huniq : ∀ l2 ∈ pre ++ post, l2.id ≠ l.id)
    (hsv : n.saving = false) :
    (rebuildUI n).loraState.loras =
        pre.map (updLoraSpec n.loraState) ++ l :: post.map (updLoraSpec n.loraState) ∧
      (rebuildUI n).dynWidgets =
        (rebuildUI { n with loraState :=
          { groups := n.loraState.groups, loras := pre ++ post } }).dynWidgets ∧
      (saveState (rebuildUI n)).stackDataValue = DocValue.json (rebuildUI n).loraState ∧
      l ∈ (saveState (rebuildUI n)).loraState.loras := by
  have hpredg : ∀ g ∈ n.loraState.groups, (l.group_id == some g.id) = false := by
    intro g hg
    rw [hgid]
    exact beq_eq_false_iff_ne.mpr (fun hh => hdangle g hg (Option.some.inj hh).symm)
  have hpredu : jsFalsyGid l.group_id = false := by
    rw [hgid]
    simp [jsFalsyGid, jsTruthyGid_of_ne k hk]
  have hnotid : ∀ e ∈ buildSeq n.loraState, e.id ≠ l.id := by
    intro e he
    rcases List.mem_append.mp he with hgb | hub
    · obtain ⟨g, hg, hef⟩ := List.mem_flatMap.mp hgb
      have hmem := List.mem_filter.mp hef
      have hne : e ≠ l := by
        intro hel
        rw [hel] at hmem
        rw [hpredg g hg] at hmem
        exact Bool.false_ne_true hmem.2
      have : e ∈ pre ++ post := by
        have hin : e ∈ pre ++ l :: post := hsplit ▸ hmem.1
        rcases List.mem_append.mp hin with hp | hc
        · exact List.mem_append.mpr (Or.inl hp)
        · rcases List.mem_cons.mp hc with hel | hq
          · exact absurd hel hne
          · exact List.mem_append.mpr (Or.inr hq)
      exact huniq e this
    · have hmem := List.mem_filter.mp hub
      have hne : e ≠ l := by
        intro hel
        rw [hel, hpredu] at hmem
        exact Bool.false_ne_true hmem.2
      have : e ∈ pre ++ post := by
        have hin : e ∈ pre ++ l :: post := hsplit ▸ hmem.1
        rcases List.mem_append.mp hin with hp | hc
        · exact List.mem_append.mpr (Or.inl hp)
        · rcases List.mem_cons.mp hc with hel | hq
          · exact absurd hel hne
          · exact List.mem_append.mpr (Or.inr hq)
      exact huniq e this
  have hlidnone : lidLookup n.loraState l.id = none := by
    unfold lidLookup
    apply seqAssign_eq_none
    intro hmem
    obtain ⟨e, he, heid⟩ := List.mem_map.mp hmem
    exact hnotid e he heid
  have hgidnone : gidLookup n.loraState k = none := by
    unfold gidLookup
    apply seqAssign_eq_none
    intro hmem
    obtain ⟨g, hg, hgid2⟩ := List.mem_map.mp hmem
    exact hdangle g hg hgid2
  have hupd : updLoraSpec n.loraState l = l := by
    unfold updLoraSpec
    rw [hlidnone, hgid]
    simp [jsTruthyGid_of_ne k hk, hgidnone]
  have hbuck : ∀ g ∈ n.loraState.groups,
      bucketOf n.loraState.loras g = bucketOf (pre ++ post) g := by
    intro g hg
    unfold bucketOf
    rw [hsplit]
    exact filter_middle_false _ pre post l (hpredg g hg)
  have hun : unBucket n.loraState.loras = unBucket (pre ++ post) := by
    unfold unBucket
    rw [hsplit]
    exact filter_middle_false _ pre post l hpredu
  have hfirst : (rebuildUI n).loraState.loras =
      pre.map (updLoraSpec n.loraState) ++ l :: post.map (updLoraSpec n.loraState) := by
    rw [rebuildUI_loras, hsplit]
    rw [List.map_append, List.map_cons, hupd]
  refine ⟨hfirst, ?_, ?_, ?_⟩
  · rw [rebuildUI_dynWidgets, rebuildUI_dynWidgets]
    show rebuildWidgets n.loraState n.collapsedGroups =
      rebuildWidgets { groups := n.loraState.groups, loras := pre ++ post }
        n.collapsedGroups
    unfold rebuildWidgets
    rw [wsSpec_buckets_congr n.collapsedGroups n.loraState.loras (pre ++ post)
        n.loraState.groups 1 1 hbuck, hun,
      groupBuckets_congr n.loraState.groups n.loraState.loras (pre ++ post) hbuck]
  · apply saveState_stackDataValue
    rw [rebuildUI_saving]
    exact hsv
  · rw [saveState_loraState, hfirst]
    exact List.mem_append_right _ (List.mem_cons_self _ _)

/-- C10 (witness): the amended statement on a one-group node holding a
single dangling item with group_id 3. -/
theorem c10_dangling_amended_witness :
    (rebuildUI { initNode 1 with
        loraState := { groups := [mkGroup 1 1], loras := [mkBareLora 5 (some 3)] }
      }).loraState.loras =
        List.map (updLoraSpec { groups := [mkGroup 1 1], loras := [mkBareLora 5 (some 3)] })
            [] ++ mkBareLora 5 (some 3) ::
          List.map (updLoraSpec { groups := [mkGroup 1 1], loras := [mkBareLora 5 (some 3)] })
            [] ∧
      (rebuildUI { initNode 1 with
          loraState := { groups := [mkGroup 1 1], loras := [mkBareLora 5 (some 3)] }
        }).dynWidgets =
        (rebuildUI { { initNode 1 with
            loraState := { groups := [mkGroup 1 1], loras := [mkBareLora 5 (some 3)] } }
          with loraState := { groups := [mkGroup 1 1], loras := [] ++ [] } }).dynWidgets ∧
      (saveState (rebuildUI { initNode 1 with
          loraState := { groups := [mkGroup 1 1], loras := [mkBareLora 5 (some 3)] }
        })).stackDataValue =
        DocValue.json (rebuildUI { initNode 1 with
          loraState := { groups := [mkGroup 1 1], loras := [mkBareLora 5 (some 3)] }
        }).loraState ∧
      mkBareLora 5 (some 3) ∈ (saveState (rebuildUI { initNode 1 with
        loraState := { groups := [mkGroup 1 1], loras := [mkBareLora 5 (some 3)] }
        })).loraState.loras := by
  have h := c10_dangling_amended
    { initNode 1 with
      loraState := { groups := [mkGroup 1 1], loras := [mkBareLora 5 (some 3)] } }
    [] [] (mkBareLora 5 (some 3)) 3 rfl rfl (by decide) (by decide) (by decide) rfl
  exact h

/- ------------------------------------------------------------------
Claim C5 — precondition-violating mutations.
------------------------------------------------------------------ -/

/-- C5 (counterexample): addItem with a non-null group id pointing at
no existing group is not a no-op: on a fresh node, addLora (some 1)
changes both the snapshot and the persisted document field. -/
theorem c5_counterexample :
    (addLora (initNode 1) (some 1)).stackDataValue ≠ (initNode 1).stackDataValue ∧
      (addLora (initNode 1) (some 1)).loraState ≠ (initNode 1).loraState := by
  decide

/-- C5 (amended): removeGroup on a missing group id and removeLora on
a missing item id leave the entire node state (hence the persisted
snapshot) unchanged, while addLora with any non-null group id never
validates the group: it appends the default item regardless. -/
theorem c5_preconditions_amended (n : NodeState) (gid i k : Nat)
    (hg : ∀ g ∈ n.loraState.groups, g.id ≠ gid)
    (hl : ∀ l ∈ n.loraState.loras, l.id ≠ i) :
    removeGroup n gid = n ∧ removeLora n i = n ∧
      (addLora n (some k)).loraState.loras =
        n.loraState.loras ++ [defaultLora n.nextLoraId (some k)] := by
  refine ⟨?_, ?_, ?_⟩
  · unfold removeGroup
    rw [jsFindIndex_eq_none _ _ (fun g hgm => beq_eq_false_iff_ne.mpr (hg g hgm))]
  · unfold removeLora
    rw [jsFindIndex_eq_none _ _ (fun l hlm => beq_eq_false_iff_ne.mpr (hl l hlm))]
  · unfold addLora
    rw [saveState_loraState]

/-- C5 (witness): the amended statement applied to a fresh node. -/
theorem c5_preconditions_amended_witness :
    removeGroup (initNode 1) 1 = initNode 1 ∧ removeLora (initNode 1) 1 = initNode 1 ∧
      (addLora (initNode 1) (some 1)).loraState.loras =
        (initNode 1).loraState.loras ++ [defaultLora (initNode 1).nextLoraId (some 1)] :=
  c5_preconditions_amended (initNode 1) 1 1 1 (by decide) (by decide)

/- ------------------------------------------------------------------
Claim C2 — fallback precedence on load.
------------------------------------------------------------------ -/

/-- C2 (counterexample): with a present-but-unparseable document field
and a localStorage backup holding ceBackup, restoreState does not
consult the backup at all: the node is returned unchanged, the backup
snapshot is not adopted and nothing is written to the document field. -/
theorem c2_counterexample :
    restoreState ceNodeCorrupt = ceNodeCorrupt ∧
      ceNodeCorrupt.loraState ≠ ceBackup ∧
      ceNodeCorrupt.stackDataValue ≠ DocValue.json ceBackup := by
  decide

/-- C2 (amended): the localStorage fallback fires only when the
document field is absent or empty (falsy); in that case load adopts
the backup snapshot S, immediately saves it into the document field
(so a document-only load succeeds afterwards), keeps the backup, and
the restored snapshot carries exactly the groups and items of S
(ids renumbered, every other field preserved). -/
theorem c2_fallback_amended (n : NodeState) (S : LoraState)
    (hempty : n.stackDataValue = DocValue.empty)
    (hcache : n.localCache = some S) (hsv : n.saving = false) :
    (restoreState n).stackDataValue = DocValue.json S ∧
      (restoreState n).localCache = some S ∧
      (restoreState n).loraState.groups.map groupFields = S.groups.map groupFields ∧
      (restoreState n).loraState.loras.map loraFields = S.loras.map loraFields := by
  rw [restoreState_empty_cache n S hempty hcache hsv]
  set m := { clearDynamicWidgets (saveState { n with loraState := S })
    with loraState := S } with hm
  have hsd : m.stackDataValue = DocValue.json S := by
    rw [hm]
    show (saveState { n with loraState := S }).stackDataValue = DocValue.json S
    exact saveState_stackDataValue { n with loraState := S } hsv
  have hlc : m.localCache = some S := by
    rw [hm]
    show (saveState { n with loraState := S }).localCache = some S
    exact saveState_localCache_self { n with loraState := S } hsv hcache
  refine ⟨?_, ?_, ?_, ?_⟩
  · rw [rebuildUI_stackDataValue, hsd]
  · rw [rebuildUI_localCache, hlc]
  · rw [rebuildUI_groups]
    show (m.loraState.groups.map (updGroupSpec m.loraState)).map groupFields =
      S.groups.map groupFields
    rw [List.map_map]
    exact List.map_congr_left (fun g _ => updGroupSpec_fields m.loraState g)
  · rw [rebuildUI_loras]
    show (m.loraState.loras.map (updLoraSpec m.loraState)).map loraFields =
      S.loras.map loraFields
    rw [List.map_map]
    exact List.map_congr_left (fun l _ => updLoraSpec_fields m.loraState l)

/-- C2 (witness): the amended statement on a fresh node whose backup
holds ceBackup. -/
theorem c2_fallback_amended_witness :
    (restoreState { initNode 1 with localCache := some ceBackup }).stackDataValue =
        DocValue.json ceBackup ∧
      (restoreState { initNode 1 with localCache := some ceBackup }).localCache =
        some ceBackup ∧
      (restoreState { initNode 1 with localCache := some ceBackup
        }).loraState.groups.map groupFields = ceBackup.groups.map groupFields ∧
      (restoreState { initNode 1 with localCache := some ceBackup
        }).loraState.loras.map loraFields = ceBackup.loras.map loraFields :=
  c2_fallback_amended { initNode 1 with localCache := some ceBackup } ceBackup
    rfl rfl rfl

/- ------------------------------------------------------------------
Claim C3 — load-time validation.
------------------------------------------------------------------ -/

/-- C3 (counterexample): a document field that parses to the
structurally empty snapshot IS adopted: it replaces a previously
non-empty snapshot, contradicting the claimed populatedness check. -/
theorem c3_counterexample :
    (restoreState ceNodeEmptyParse).loraState = { groups := [], loras := [] } ∧
      ceNodeEmptyParse.loraState ≠ { groups := [], loras := [] } := by
  decide

/-- C3 (amended): restoreState adopts the document field value
whenever it is present and parses as JSON — with no populatedness
check whatsoever: the parsed snapshot, including the structurally
empty one, becomes the new snapshot (ids renumbered, all other group
and item fields preserved verbatim). -/
theorem c3_load_validation_amended (n : NodeState) (S : LoraState)
    (h : n.stackDataValue = DocValue.json S) :
    (restoreState n).loraState.groups.map groupFields = S.groups.map groupFields ∧
      (restoreState n).loraState.loras.map loraFields = S.loras.map loraFields := by
  rw [restoreState_json n S h]
  constructor
  · rw [rebuildUI_groups]
    show (S.groups.map (updGroupSpec S)).map groupFields = S.groups.map groupFields
    rw [List.map_map]
    exact List.map_congr_left (fun g _ => updGroupSpec_fields S g)
  · rw [rebuildUI_loras]
    show (S.loras.map (updLoraSpec S)).map loraFields = S.loras.map loraFields
    rw [List.map_map]
    exact List.map_congr_left (fun l _ => updLoraSpec_fields S l)

/-- C3 (witness): the amended statement at the structurally empty
parse result, confirming that even it is adopted. -/
theorem c3_load_validation_amended_witness :
    (restoreState ceNodeEmptyParse).loraState.groups.map groupFields =
        List.map groupFields [] ∧
      (restoreState ceNodeEmptyParse).loraState.loras.map loraFields =
        List.map loraFields [] :=
  c3_load_validation_amended ceNodeEmptyParse { groups := [], loras := [] } rfl

/- ------------------------------------------------------------------
Claim C6 — collapse semantics.
------------------------------------------------------------------ -/

/-- C6 (code divergence, at the failing input): with group 1 collapsed
the rebuild of a one-group, one-item node computes exactly the same
node size as with no group collapsed, and not a single dynamic widget
contributes zero height — the Collapse set only flips the header
glyph, so no control of the collapsed group is zero-height during
size computation, contrary to the documented collapse semantics. -/
theorem c6_collapse_no_effect :
    computeSizeOf (rebuildUI { scnCollapseNode with collapsedGroups := [1] }) =
        computeSizeOf (rebuildUI scnCollapseNode) ∧
      computeSizeOf (rebuildUI { scnCollapseNode with collapsedGroups := [1] }) =
        (450, 450) ∧
      ((rebuildUI { scnCollapseNode with collapsedGroups := [1] }).dynWidgets.filter
          (fun w => widgetEffHeight w == 0)).length = 0 ∧
      (rebuildUI { scnCollapseNode with collapsedGroups := [1] }).dynWidgets.length =
        (rebuildUI scnCollapseNode).dynWidgets.length := by
  decide

/- ------------------------------------------------------------------
Claim C7 — randomize-toggle frame effect.
------------------------------------------------------------------ -/

/-- C7: the scenario node holds one ungrouped item with random_clip
true, min_clip 0.2 and max_clip 0.8; its rebuild creates exactly one
Min and one Max control tagged with the item; after toggling
random_clip off (the callback rebuilds), neither control exists any
more while the stored min_clip and max_clip values are still 0.2 and
0.8. -/
theorem c7_randomize_toggle :
    ratP2 = 0.2 ∧ ratP8 = 0.8 ∧
      (scnRandomNode.loraState.loras.map
          (fun l => (l.group_id, l.random_clip, l.min_clip, l.max_clip)) =
        [(none, some true, some ratP2, some ratP8)] ∧
      ((rebuildUI scnRandomNode).dynWidgets.filter
          (fun w => w.name == "    Min" && w.loraTag == some 1)).length = 1 ∧
      ((rebuildUI scnRandomNode).dynWidgets.filter
          (fun w => w.name == "    Max" && w.loraTag == some 1)).length = 1 ∧
      (scnRandomNodeOff.dynWidgets.filter (fun w => w.name == "    Min")).length = 0 ∧
      (scnRandomNodeOff.dynWidgets.filter (fun w => w.name == "    Max")).length = 0 ∧
      scnRandomNodeOff.loraState.loras.map (fun l => (l.min_clip, l.max_clip)) =
        [(some ratP2, some ratP8)]) :=
  ⟨by unfold ratP2; rw [Rat.mkRat_eq_div]; norm_num,
   by unfold ratP8; rw [Rat.mkRat_eq_div]; norm_num,
   by decide⟩

end LoraStacker
